import Mathlib

/-!
A shallow embedding of `gtime.StrToTime` and `gtime.ConvertZone`.

Source: `g/os/gtime/gtime.go` (`TIME_REAGEX_PATTERN`, `Datetime`, `StrToTime`,
`ConvertZone`).

Conventions of the embedding:

* Strings are lists of characters (`List Char`). Every character the grammar
  `TIME_REAGEX_PATTERN` can consume is ASCII, so character positions and byte
  positions coincide on every captured group.
* Go's `regexp` package implements leftmost-first (Perl-like) matching: the
  match returned is the one a backtracking engine finds first. `Regex.run` is
  that backtracking engine in continuation-passing style, `search` the
  unanchored leftmost search, and `Regex.Matches` its declarative reading.
* A `time.Time` built by `time.Date(year, month, day, hour, min, sec, nsec, loc)`
  is represented by the arguments of that call (`Time`); `time.Date` itself is
  library code.
* Where the absolute instant matters (`ConvertZone`, signed offsets), package
  `time` is modelled: a location (`Zone`) is an initial offset and a table of
  transitions, `Zone.lookup` follows `Location.lookup`, `Date` follows
  `time.Date` (normalization of overflowing fields, proleptic Gregorian
  calendar, search for the zone offset of the expected time), an `Instant` is
  Unix seconds, nanoseconds and a location, and the accessors `Year` ...
  `Nanosecond` follow `abs`, `absDate` and `absClock`.
  `time.LoadLocation` is a parameter of `ConvertZone` and may return any
  location. `Time.build` is the call of `time.Date` that `StrToTime` ends with;
  the local zone of the process is taken to have the fixed offset `localOffset`.
* `time.Now().Year()` and the offset returned by `time.Now().Zone()` are the
  explicit parameters `nowYear` and `localOffset` of `StrToTime`.
* A run-time panic is an explicit outcome (`Outcome.panic`).
* Go's `int` is 64 bits wide; the numbers `StrToTime` reads from the groups
  have at most nine digits, so integers are modelled by `Int` without
  wrap-around.
-/

namespace Gtime

/-! ## Regular expressions (the fragment used by `TIME_REAGEX_PATTERN`) -/

/-- Abstract syntax of the regular expressions needed for `TIME_REAGEX_PATTERN`:
single-character classes, concatenation, greedy `?`, greedy `*` over a
character class, and numbered capture groups. -/
inductive Regex where
  | empty : Regex
  | cls (p : Char → Bool) : Regex
  | cat (a b : Regex) : Regex
  | quest (a : Regex) : Regex
  | starCls (p : Char → Bool) : Regex
  | cap (n : Nat) (a : Regex) : Regex

/-- Capture registers of one matching thread: the most recent entry for a
group number is the group's text. -/
abbrev Caps := List (Nat × List Char)

/-- Text of capture group `n`; the empty string when the group did not
participate (as `FindStringSubmatch` reports it). -/
def capGet (n : Nat) : Caps → List Char
  | [] => []
  | (k, w) :: cs => if k = n then w else capGet n cs

/-- Greedy `[...]*`: consume as many characters of the class as possible,
giving back one at a time if the continuation fails. -/
def starRun {α : Type} (p : Char → Bool) : List Char → (List Char → Option α) → Option α
  | [], k => k []
  | c :: t, k =>
    if p c then
      match starRun p t k with
      | some r => some r
      | none => k (c :: t)
    else k (c :: t)

/-- Backtracking matcher: `run re s cs k` matches `re` at the front of `s`
with capture registers `cs`, then calls the continuation `k` on the rest of
the input. Alternatives are tried in priority order (greedy first), and the
first overall success is returned. -/
def Regex.run {α : Type} : Regex → List Char → Caps → (List Char → Caps → Option α) → Option α
  | .empty, s, cs, k => k s cs
  | .cls p, s, cs, k =>
    match s with
    | [] => none
    | c :: t => if p c then k t cs else none
  | .cat a b, s, cs, k => a.run s cs (fun s1 cs1 => b.run s1 cs1 k)
  | .quest a, s, cs, k =>
    match a.run s cs k with
    | some r => some r
    | none => k s cs
  | .starCls p, s, cs, k => starRun p s (fun s1 => k s1 cs)
  | .cap n a, s, cs, k =>
    a.run s cs (fun s1 cs1 => k s1 ((n, s.take (s.length - s1.length)) :: cs1))

/-- Greedy `x{0,n}`, compiled as Go's regexp compiler does: `(x(x(...)?)?)?`. -/
def Regex.upTo : Nat → Regex → Regex
  | 0, _ => .empty
  | n + 1, x => .quest (.cat x (Regex.upTo n x))

/-- Exactly `n` copies: `x{n}`. -/
def Regex.times : Nat → Regex → Regex
  | 0, _ => .empty
  | n + 1, x => .cat x (Regex.times n x)

/-- Greedy `x{lo,hi}`: `lo` copies of `x` followed by `x{0,hi-lo}`. -/
def Regex.rep (lo hi : Nat) (x : Regex) : Regex :=
  .cat (Regex.times lo x) (Regex.upTo (hi - lo) x)

/-! ## Character classes -/

/-- Class `\d` of Go's regexp: ASCII digits only. -/
def isDigit (c : Char) : Bool := decide ('0' ≤ c) && decide (c ≤ '9')

/-- Class `\s` of Go's regexp: `[\t\n\f\r ]`. -/
def isSpace (c : Char) : Bool :=
  c == '\t' || c == '\n' || c == Char.ofNat 12 || c == '\r' || c == ' '

/-- Class of the two date separators, hyphen and slash. -/
def isDateSep (c : Char) : Bool := c == '-' || c == '/'

/-- Class `[\sT]`. -/
def isSpaceOrT (c : Char) : Bool := isSpace c || c == 'T'

/-- Class `[\sZ]`. -/
def isSpaceOrZ (c : Char) : Bool := isSpace c || c == 'Z'

/-- Class `[\+-]`. -/
def isSign (c : Char) : Bool := c == '+' || c == '-'

/-- Class `[:\d]`. -/
def isColonOrDigit (c : Char) : Bool := c == ':' || isDigit c

/-- Class `:`. -/
def isColon (c : Char) : Bool := c == ':'

/-- Class `\.`. -/
def isDot (c : Char) : Bool := c == '.'

/-! ## The grammar -/

/-- Group 1: two to four digits, a date separator, two digits, a date
separator, two digits. -/
def dateRe : Regex :=
  .cat (Regex.rep 2 4 (.cls isDigit))
    (.cat (.cls isDateSep)
      (.cat (Regex.rep 2 2 (.cls isDigit))
        (.cat (.cls isDateSep) (Regex.rep 2 2 (.cls isDigit)))))

/-- Group 2: `\d{0,2}:{0,1}\d{0,2}:{0,1}\d{0,2}`. -/
def timeRe : Regex :=
  .cat (Regex.rep 0 2 (.cls isDigit))
    (.cat (Regex.rep 0 1 (.cls isColon))
      (.cat (Regex.rep 0 2 (.cls isDigit))
        (.cat (Regex.rep 0 1 (.cls isColon)) (Regex.rep 0 2 (.cls isDigit)))))

/-- Everything after group 1:
`[\sT]{0,1}(...){0,1}\.{0,1}(\d{0,9})([\sZ]{0,1})([\+-]{0,1})([:\d]*)`. -/
def tailRe : Regex :=
  .cat (Regex.rep 0 1 (.cls isSpaceOrT))
    (.cat (Regex.rep 0 1 (.cap 2 timeRe))
      (.cat (Regex.rep 0 1 (.cls isDot))
        (.cat (.cap 3 (Regex.rep 0 9 (.cls isDigit)))
          (.cat (.cap 4 (Regex.rep 0 1 (.cls isSpaceOrZ)))
            (.cat (.cap 5 (Regex.rep 0 1 (.cls isSign)))
              (.cap 6 (.starCls isColonOrDigit)))))))

/-- Whole pattern `TIME_REAGEX_PATTERN`, group 0 being the whole match. -/
def TIME_REAGEX_PATTERN : Regex :=
  .cap 0 (.cat (.cap 1 dateRe) tailRe)

/-- Unanchored leftmost search: try every start position from left to right;
the registers of the first success are returned. -/
def search (re : Regex) : List Char → Option Caps
  | [] => re.run [] [] (fun _ cs => some cs)
  | c :: t =>
    match re.run (c :: t) [] (fun _ cs => some cs) with
    | some cs => some cs
    | none => search re t

/-- Model of `timeRegex.FindStringSubmatch(str)`: the empty slice when there
is no match, otherwise the seven strings `match[0..6]`. -/
def FindStringSubmatch (str : List Char) : List (List Char) :=
  match search TIME_REAGEX_PATTERN str with
  | none => []
  | some cs => (List.range 7).map (fun n => capGet n cs)

/-! ## Library functions used by `StrToTime` -/

/-- Model of `strings.Split(s, sep)` for a one-character separator: the pieces
between the separators, always at least one piece. -/
def Split (s : List Char) (sep : Char) : List (List Char) :=
  match s with
  | [] => [[]]
  | c :: t =>
    if c = sep then [] :: Split t sep
    else
      match Split t sep with
      | [] => [[c]]
      | p :: ps => (c :: p) :: ps

/-- Model of `strings.Replace(s, old, "", -1)` for a one-character `old`: every
occurrence is removed. -/
def ReplaceAllEmpty (s : List Char) (old : Char) : List Char :=
  s.filter (fun c => !(c == old))

/-- Model of `strings.TrimLeft(s, cutset)`: drop leading characters that occur
in the cutset. -/
def TrimLeft (s : List Char) (cutset : List Char) : List Char :=
  s.dropWhile (fun c => cutset.contains c)

/-- Model of `strings.Repeat(s, count)`: it panics (`none`) on a negative count. -/
def Repeat (s : List Char) (count : Int) : Option (List Char) :=
  if count < 0 then none else some ((List.replicate count.toNat s).flatten)

/-- Slice expression `s[lo:hi]`: it panics (`none`) when the bounds are out of
range. -/
def slice (s : List Char) (lo hi : Nat) : Option (List Char) :=
  if lo ≤ hi ∧ hi ≤ s.length then some ((s.drop lo).take (hi - lo)) else none

/-- Value of an ASCII digit. -/
def digitVal (c : Char) : Nat := c.toNat - 48

/-- Decimal value of a string of ASCII digits read left to right, `none` as
soon as a character is not a digit. -/
def atoiDigits : List Char → Nat → Option Nat
  | [], n => some n
  | c :: t, n => if isDigit c then atoiDigits t (n * 10 + digitVal c) else none

/-- Model of `strconv.Atoi` with the error result dropped (`x, _ = Atoi(s)`):
an optional sign followed by one or more digits gives the number, anything
else gives 0. (Every string `StrToTime` converts has at most 9 characters, so
the 64-bit range error cannot occur.) -/
def Atoi (s : List Char) : Int :=
  match s with
  | [] => 0
  | c :: t =>
    if c = '-' ∨ c = '+' then
      match t with
      | [] => 0
      | _ :: _ =>
        match atoiDigits t 0 with
        | none => 0
        | some n => if c = '-' then -(n : Int) else (n : Int)
    else
      match atoiDigits (c :: t) 0 with
      | none => 0
      | some n => (n : Int)

/-! ## `StrToTime` -/

/-- The two locations `StrToTime` passes to `time.Date`. -/
inductive Location where
  | Local
  | UTC
  deriving DecidableEq, Repr

/-- A `time.Time` value, represented by the arguments of the `time.Date` call
that builds it. -/
structure Time where
  year : Int
  month : Int
  day : Int
  hour : Int
  min : Int
  sec : Int
  nsec : Int
  loc : Location
  deriving DecidableEq, Repr

/-- What a call of `StrToTime` does: return a time and a nil error, return the
zero time and the error `unsupported time format`, or abort with a run-time
panic. -/
inductive Outcome where
  | ok (t : Time)
  | unsupported
  | panic
  deriving DecidableEq, Repr

/-- Lines 106-109: the date group split on `-`, or on `/` when that gives
fewer than three parts. -/
def dateArray (date : List Char) : List (List Char) :=
  let array := Split date '-'
  if array.length < 3 then Split date '/' else array

/-- Lines 105-118: year, month and day from `match[1]`. -/
def dateFields (date : List Char) (nowYear : Int) : Int × Int × Int :=
  let array := dateArray date
  if array.length ≥ 3 then
    let year := Atoi (array.getD 0 [])
    let year := if year < 100 then Int.tdiv nowYear 100 * 100 + year else year
    (year, Atoi (array.getD 1 []), Atoi (array.getD 2 []))
  else (0, 0, 0)

/-- Lines 119-129: hour, minute and second from `match[2]`. -/
def timeFields (time : List Char) : Int × Int × Int :=
  if time.length > 0 then
    let array := Split time ':'
    let hour := Atoi (array.getD 0 [])
    let min := if array.length ≥ 2 then Atoi (array.getD 1 []) else 0
    let sec := if array.length ≥ 3 then Atoi (array.getD 2 []) else 0
    (hour, min, sec)
  else (0, 0, 0)

/-- The loop `for i := 0; i < 9 - len(match[3]); i++ { nsec *= 10 }`. -/
def mulTen (nsec : Int) : Nat → Int
  | 0 => nsec
  | k + 1 => mulTen (nsec * 10) k

/-- Lines 130-136: nanoseconds from `match[3]`. -/
def nsecField (frac : List Char) : Int :=
  if frac.length > 0 then mulTen (Atoi frac) (9 - frac.length) else 0

/-- Lines 137-140: a zone marker without offset digits means offset `000000`. -/
def effectiveOffset (marker offset : List Char) : List Char :=
  if marker ≠ [] ∧ offset = [] then "000000".toList else offset

/-- Lines 143-148: the offset's hour, minute and second; `none` is a panic. -/
def offsetHMS (offset : List Char) : Option (Int × Int × Int) := do
  let zone := ReplaceAllEmpty offset ':'
  let zone := TrimLeft zone "+-".toList
  let pad ← Repeat "0".toList (6 - (zone.length : Int))
  let zone := zone ++ pad
  let h ← slice zone 0 2
  let m ← slice zone 2 4
  let s ← slice zone 4 6
  pure (Atoi h, Atoi m, Atoi s)

/-- Lines 152-181: the location and the shifted hour, minute and second, given
the offset's components, the sign group and the local offset in seconds. -/
def zoneShift (h m s : Int) (sign : List Char) (localOffset : Int)
    (hour min sec : Int) : Location × Int × Int × Int :=
  if h * 3600 + m * 60 + s ≠ localOffset then
    let operation := if sign ≠ "+".toList ∧ sign ≠ "-".toList then "-".toList else sign
    if operation = "+".toList then
      (Location.UTC,
        if h > 0 then hour - h else hour,
        if m > 0 then min - m else min,
        if s > 0 then sec - s else sec)
    else if operation = "-".toList then
      (Location.UTC,
        if h > 0 then hour + h else hour,
        if m > 0 then min + m else min,
        if s > 0 then sec + s else sec)
    else (Location.UTC, hour, min, sec)
  else (Location.Local, hour, min, sec)

/-- Body of `StrToTime` after a successful match (lines 103-185), on the
captured groups `match[1..6]`. -/
def fromGroups (date time frac marker sign offset : List Char)
    (nowYear localOffset : Int) : Outcome :=
  let (year, month, day) := dateFields date nowYear
  let (hour, min, sec) := timeFields time
  let nsec := nsecField frac
  let offset := effectiveOffset marker offset
  if offset ≠ [] then
    match offsetHMS offset with
    | none => Outcome.panic
    | some (h, m, s) =>
      let (loc, hour, min, sec) := zoneShift h m s sign localOffset hour min sec
      Outcome.ok ⟨year, month, day, hour, min, sec, nsec, loc⟩
  else Outcome.ok ⟨year, month, day, hour, min, sec, nsec, Location.Local⟩

/-- Model of `StrToTime(str)`; `nowYear` is `time.Now().Year()` and
`localOffset` the offset in seconds that `time.Now().Zone()` returns. -/
def StrToTime (str : List Char) (nowYear localOffset : Int) : Outcome :=
  let m := FindStringSubmatch str
  if m.length > 0 then
    fromGroups (m.getD 1 []) (m.getD 2 []) (m.getD 3 []) (m.getD 4 []) (m.getD 5 [])
      (m.getD 6 []) nowYear localOffset
  else Outcome.unsupported

/-! ## Shapes named by the specification -/

/-- The shape of a date: two to four digits, `-` or `/`, two digits, `-` or
`/`, two digits. -/
def DateShape (d : List Char) : Prop :=
  ∃ (y mo da : List Char) (c1 c2 : Char),
    d = y ++ c1 :: (mo ++ c2 :: da) ∧ 2 ≤ y.length ∧ y.length ≤ 4 ∧
    mo.length = 2 ∧ da.length = 2 ∧
    (∀ c ∈ y, isDigit c = true) ∧ (∀ c ∈ mo, isDigit c = true) ∧
    (∀ c ∈ da, isDigit c = true) ∧ isDateSep c1 = true ∧ isDateSep c2 = true

/-- The input contains a substring of the shape of a date. -/
def ContainsDate (str : List Char) : Prop :=
  ∃ pre d post, str = pre ++ d ++ post ∧ DateShape d

/-! ## `Datetime` -/

/-- The byte `'0' + n`. -/
def digitChar (n : Nat) : Char := Char.ofNat (48 + n)

/-- Decimal digits of `u`, least significant first, as the loop of `appendInt`
in package `time` writes them into its 20-byte buffer. -/
def decimalRev : Nat → Nat → List Char
  | 0, u => [digitChar u]
  | fuel + 1, u =>
    if u ≥ 10 then digitChar (u - (u / 10) * 10) :: decimalRev fuel (u / 10)
    else [digitChar u]

/-- Model of `appendInt(b, x, width)` of package `time` for `x ≥ 0`: the decimal
digits of `x`, padded on the left with zeros to `width` characters. -/
def appendInt (x width : Nat) : List Char :=
  let ds := (decimalRev 20 x).reverse
  List.replicate (width - ds.length) '0' ++ ds

/-- Model of `Datetime()`, that is `time.Now().Format("2006-01-02 15:04:05")`,
as a function of the calendar fields of the current instant. -/
def Datetime (year month day hour min sec : Nat) : List Char :=
  appendInt year 4 ++ '-' :: appendInt month 2 ++ '-' :: appendInt day 2 ++
    ' ' :: appendInt hour 2 ++ ':' :: appendInt min 2 ++ ':' :: appendInt sec 2

/-- Number of days of a month of the Gregorian calendar. -/
def daysIn (year month : Nat) : Nat :=
  if month = 2 then
    if year % 4 = 0 ∧ (year % 100 ≠ 0 ∨ year % 400 = 0) then 29 else 28
  else if month = 4 ∨ month = 6 ∨ month = 9 ∨ month = 11 then 30
  else 31

/-- The digit character of `n % 10`; it is a digit for every `n`. -/
def dig (n : Nat) : Char := Char.ofNat (48 + n % 10)

/-- The shape of the time group: up to two digits, an optional colon, up to
two digits, an optional colon, up to two digits. -/
def TimeShape (t : List Char) : Prop :=
  ∃ (a c1 b c2 c : List Char),
    t = a ++ (c1 ++ (b ++ (c2 ++ c))) ∧
    a.length ≤ 2 ∧ c1.length ≤ 1 ∧ b.length ≤ 2 ∧ c2.length ≤ 1 ∧ c.length ≤ 2 ∧
    (∀ x ∈ a, isDigit x = true) ∧ (∀ x ∈ c1, isColon x = true) ∧
    (∀ x ∈ b, isDigit x = true) ∧ (∀ x ∈ c2, isColon x = true) ∧
    (∀ x ∈ c, isDigit x = true)

/-- The shapes the grammar guarantees for the captured groups `match[1..6]`. -/
structure GroupShapes (d t f mk sg off : List Char) : Prop where
  date : DateShape d
  time : TimeShape t
  frac : f.length ≤ 9 ∧ ∀ c ∈ f, isDigit c = true
  marker : mk.length ≤ 1 ∧ ∀ c ∈ mk, isSpaceOrZ c = true
  sign : sg.length ≤ 1 ∧ ∀ c ∈ sg, isSign c = true
  offset : ∀ c ∈ off, isColonOrDigit c = true

/-- Decimal value of a string of digits, most significant digit first. -/
def decimalValue (s : List Char) : Nat := Nat.ofDigits 10 (s.reverse.map digitVal)

/-! ## Relational reading of the matcher -/

/-- Declarative semantics: `re.Matches s cs s1 cs1` holds when `re` can match a
front part of `s` leaving `s1`, turning the capture registers `cs` into `cs1`. -/
def Regex.Matches : Regex → List Char → Caps → List Char → Caps → Prop
  | .empty, s, cs, s1, cs1 => s1 = s ∧ cs1 = cs
  | .cls p, s, cs, s1, cs1 => ∃ c, s = c :: s1 ∧ p c = true ∧ cs1 = cs
  | .cat a b, s, cs, s1, cs1 => ∃ s2 cs2, a.Matches s cs s2 cs2 ∧ b.Matches s2 cs2 s1 cs1
  | .quest a, s, cs, s1, cs1 => a.Matches s cs s1 cs1 ∨ (s1 = s ∧ cs1 = cs)
  | .starCls p, s, cs, s1, cs1 => (∃ w, s = w ++ s1 ∧ ∀ c ∈ w, p c = true) ∧ cs1 = cs
  | .cap n a, s, cs, s1, cs1 =>
    ∃ cs2, a.Matches s cs s1 cs2 ∧ cs1 = (n, s.take (s.length - s1.length)) :: cs2

/-! ## Package `time`: calendar, instants and zones -/

/-- Function `norm(hi, lo, base)` of package `time`: carry `lo` into `hi` so
that `0 ≤ lo < base`. -/
def norm (hi lo base : Int) : Int × Int :=
  let r : Int × Int :=
    if lo < 0 then
      let n := Int.tdiv (-lo - 1) base + 1
      (hi - n, lo + n * base)
    else (hi, lo)
  if r.2 ≥ base then
    let n := Int.tdiv r.2 base
    (r.1 + n, r.2 - n * base)
  else r

/-- Function `isLeap` of package `time`. -/
def isLeap (year : Int) : Bool :=
  year % 4 == 0 && (year % 100 != 0 || year % 400 == 0)

/-- Table `daysBefore` of package `time`: `daysBefore m` is the number of days
in a non-leap year before month `m + 1`. -/
def daysBefore (m : Int) : Int :=
  if m ≤ 0 then 0 else if m = 1 then 31 else if m = 2 then 59 else if m = 3 then 90
  else if m = 4 then 120 else if m = 5 then 151 else if m = 6 then 181
  else if m = 7 then 212 else if m = 8 then 243 else if m = 9 then 273
  else if m = 10 then 304 else if m = 11 then 334 else 365

/-- Days from 1970-01-01 to January 1 of `year` (proleptic Gregorian calendar). -/
def daysBeforeYear (year : Int) : Int :=
  365 * (year - 1) + (year - 1) / 4 - (year - 1) / 100 + (year - 1) / 400 - 719162

/-- Days from 1970-01-01 to the given day of a (normalized) month. -/
def daysFromCivil (year month day : Int) : Int :=
  daysBeforeYear year + daysBefore (month - 1) +
    (if isLeap year = true ∧ month ≥ 3 then 1 else 0) + (day - 1)

/-- Year and day of the year (from 0) of a day counted from 1970-01-01, by the
400-, 100-, 4- and 1-year cycles as `absDate` of package `time` computes them. -/
def yearOfDays (days : Int) : Int × Int :=
  let d := days + 719162
  let n400 := d / 146097
  let d := d - 146097 * n400
  let n100 := d / 36524
  let n100 := n100 - n100 / 4
  let d := d - 36524 * n100
  let n4 := d / 1461
  let d := d - 1461 * n4
  let n1 := d / 365
  let n1 := n1 - n1 / 4
  let d := d - 365 * n1
  (1 + 400 * n400 + 100 * n100 + 4 * n4 + n1, d)

/-- Month and day of the month of day `yday` (from 0) of a year, as `absDate`
computes them. -/
def monthOfYday (leap : Bool) (yday : Int) : Int × Int :=
  if leap = true ∧ yday = 31 + 29 - 1 then (2, 29)
  else
    let day := if leap = true ∧ yday > 31 + 29 - 1 then yday - 1 else yday
    let month := day / 31
    let e := daysBefore (month + 1)
    if day ≥ e then (month + 2, day - e + 1)
    else (month + 1, day - daysBefore month + 1)

/-- Year, month and day of a day counted from 1970-01-01. -/
def civilFromDays (days : Int) : Int × Int × Int :=
  let (year, yday) := yearOfDays days
  let (month, day) := monthOfYday (isLeap year) yday
  (year, month, day)

/-- Sentinel `alpha` of package `time`: the start a lookup reports for the
period before the first transition of a location. -/
def alpha : Int := -9223372036854775808

/-- Sentinel `omega` of package `time`: the end a lookup reports for the period
after the last transition of a location. -/
def omega : Int := 9223372036854775807

/-- A `*time.Location`: the offset, in seconds east of UTC, in force before the
first transition (the zone `lookupFirstZone` selects), and the transitions `tx`
of the location. A transition `(when, offset)` puts `offset` in force from the
instant `when` (seconds since 1970-01-01T00:00:00Z) on; the library keeps the
transitions sorted by `when`. Zone names and the daylight-saving flag play no
part in the instants computed. Transitions that the library derives from the
extension rule of a location are taken to be listed in `tx`. -/
structure Zone where
  first : Int
  tx : List (Int × Int)
  deriving DecidableEq, Repr

/-- Model of `time.FixedZone(name, offset)`: a location that always uses the
given offset. -/
def FixedZone (offset : Int) : Zone := ⟨offset, []⟩

/-- The search of `Location.lookup` through the transitions: `offset` is in
force from `start` on, and the first transition later than `sec` ends the
period. The library finds the same entry, the last transition not after `sec`,
by binary search in the sorted table. -/
def lookupFrom (sec : Int) (offset start : Int) : List (Int × Int) → Int × Int × Int
  | [] => (offset, start, omega)
  | (w, o) :: rest => if sec < w then (offset, start, w) else lookupFrom sec o w rest

/-- Model of `l.lookup(sec)`: the offset in use at the instant `sec`, and the
start and the end of the period in which that offset is in force, as the triple
`(offset, start, end)`. -/
def Zone.lookup (l : Zone) (sec : Int) : Int × Int × Int :=
  lookupFrom sec l.first alpha l.tx

/-- A `time.Time` value: an absolute instant (seconds since 1970-01-01T00:00:00Z
and nanoseconds within the second) together with a location. -/
structure Instant where
  unix : Int
  nsec : Int
  loc : Zone
  deriving DecidableEq, Repr

/-- The block of `time.Date` that looks for the zone offset of the expected
time: `unix` is the wall clock read as UTC. The offset in force at `unix` is
taken when `unix - offset` lies in the period of that offset, and otherwise the
offset in force at `unix - offset`. (Earlier releases of the library take in
the second case the offset in force just before the start, or at the end, of the
period; the two agree whenever `unix - offset` lies in a neighbouring period.) -/
def dateOffset (loc : Zone) (unix : Int) : Int :=
  let lk := loc.lookup unix
  let offset := lk.1
  let start := lk.2.1
  let stop := lk.2.2
  if offset ≠ 0 then
    let utc := unix - offset
    if utc < start ∨ utc ≥ stop then (loc.lookup utc).1 else offset
  else offset

/-- Model of `time.Date(year, month, day, hour, min, sec, nsec, loc)`:
out-of-range fields are carried over by `norm`, the day count and the seconds
of the day give the wall clock read as UTC, and the zone offset found for it is
subtracted. -/
def Date (year month day hour min sec nsec : Int) (loc : Zone) : Instant :=
  let ym := norm year (month - 1) 12
  let year := ym.1
  let month := ym.2 + 1
  let sn := norm sec nsec 1000000000
  let ms := norm min sn.1 60
  let hm := norm hour ms.1 60
  let dh := norm day hm.1 24
  let d := daysFromCivil year month dh.1
  let unix := d * 86400 + (dh.2 * 3600 + hm.2 * 60 + ms.2)
  ⟨unix - dateOffset loc unix, sn.2, loc⟩

/-- Model of `t.abs()`: seconds since 1970-01-01T00:00:00 on the wall clock of
the instant's own location, that is the instant plus the offset its location
has at it. -/
def Instant.abs (t : Instant) : Int := t.unix + (t.loc.lookup t.unix).1

/-- Model of `t.Year()`. -/
def Instant.Year (t : Instant) : Int := (civilFromDays (t.abs / 86400)).1

/-- Model of `t.Month()`. -/
def Instant.Month (t : Instant) : Int := (civilFromDays (t.abs / 86400)).2.1

/-- Model of `t.Day()`. -/
def Instant.Day (t : Instant) : Int := (civilFromDays (t.abs / 86400)).2.2

/-- Model of `t.Hour()`. -/
def Instant.Hour (t : Instant) : Int := t.abs % 86400 / 3600

/-- Model of `t.Minute()`. -/
def Instant.Minute (t : Instant) : Int := t.abs % 3600 / 60

/-- Model of `t.Second()`. -/
def Instant.Second (t : Instant) : Int := t.abs % 60

/-- Model of `t.Nanosecond()`. -/
def Instant.Nanosecond (t : Instant) : Int := t.nsec

/-- Model of `t.In(loc)`: the same instant with the location set to `loc`. -/
def Instant.In (t : Instant) (loc : Zone) : Instant := ⟨t.unix, t.nsec, loc⟩

/-- The zone behind the location `StrToTime` passes to the builder:
`time.Local` is taken to have the fixed offset `localOffset`, `time.UTC` has
offset 0. -/
def Location.zone (l : Location) (localOffset : Int) : Zone :=
  match l with
  | Location.Local => FixedZone localOffset
  | Location.UTC => FixedZone 0

/-- The `time.Time` value of the call `time.Date(year, ..., nsec, local)` at the
end of `StrToTime`, the local zone having offset `localOffset`. -/
def Time.build (t : Time) (localOffset : Int) : Instant :=
  Date t.year t.month t.day t.hour t.min t.sec t.nsec (t.loc.zone localOffset)

/-! ## `ConvertZone` -/

/-- What a call of `ConvertZone` does: return a time and a nil error, return
the zero time and the error of `StrToTime`, return the zero time and the error
of a failed `time.LoadLocation`, or abort with a run-time panic. -/
inductive ConvertOutcome (E : Type) where
  | ok (t : Instant)
  | unsupported
  | lookupError (e : E)
  | panic
  deriving DecidableEq, Repr

/-- Model of `ConvertZone(strTime, toZone, fromZone...)`; `LoadLocation` is
`time.LoadLocation`, a partial function from zone names to locations whose
failures carry an error value of type `E`. -/
def ConvertZone {E : Type} (LoadLocation : List Char → Except E Zone)
    (nowYear localOffset : Int) (strTime toZone : List Char)
    (fromZone : List (List Char)) : ConvertOutcome E :=
  match StrToTime strTime nowYear localOffset with
  | Outcome.panic => ConvertOutcome.panic
  | Outcome.unsupported => ConvertOutcome.unsupported
  | Outcome.ok t0 =>
    let t := t0.build localOffset
    let r : Except E Instant :=
      if fromZone.length > 0 then
        match LoadLocation (fromZone.getD 0 []) with
        | Except.error e => Except.error e
        | Except.ok l =>
          Except.ok (Date t.Year t.Month t.Day t.Hour t.Minute t.Second t.Nanosecond l)
      else Except.ok t
    match r with
    | Except.error e => ConvertOutcome.lookupError e
    | Except.ok t =>
      match LoadLocation toZone with
      | Except.error e => ConvertOutcome.lookupError e
      | Except.ok l => ConvertOutcome.ok (t.In l)

/-- The location `America/New_York` around the year 2018: Eastern Standard
Time (-05:00), daylight-saving time (-04:00) from 2018-03-11T07:00:00Z, and
standard time again from 2018-11-04T06:00:00Z. -/
def newYork : Zone := ⟨-18000, [(1520751600, -14400), (1541311200, -18000)]⟩

/-- A small zone table used in examples: `UTC`, `Asia/Shanghai` (+08:00),
`America/Phoenix` (-07:00) and `America/New_York` (see `newYork`); every other
name is unknown. -/
def sampleZones (name : List Char) : Except (List Char) Zone :=
  if name = "UTC".toList then Except.ok (FixedZone 0)
  else if name = "Asia/Shanghai".toList then Except.ok (FixedZone 28800)
  else if name = "America/Phoenix".toList then Except.ok (FixedZone (-25200))
  else if name = "America/New_York".toList then Except.ok newYork
  else Except.error ("unknown time zone ".toList ++ name)

/-- The wall-clock reading of a time in its own location: year, month, day,
hour, minute, second, nanosecond. -/
def Instant.wallClock (t : Instant) : Int × Int × Int × Int × Int × Int × Int :=
  (t.Year, t.Month, t.Day, t.Hour, t.Minute, t.Second, t.Nanosecond)

/-- The instant that a text `YYYY-MM-DDTHH:MM:SS+hh:mm` or
`YYYY-MM-DDTHH:MM:SS-hh:mm` denotes, in seconds since 1970-01-01T00:00:00Z: the
UTC instant of the written wall clock minus the signed offset. -/
def denotedUnix (year month day hour min sec : Int) (sign : Char) (hh mm : Int) : Int :=
  (Date year month day hour min sec 0 (FixedZone 0)).unix -
    (if sign = '-' then -(hh * 3600 + mm * 60) else hh * 3600 + mm * 60)

/-! ## The matcher: soundness and completeness -/

theorem starRun_sound {α : Type} (p : Char → Bool) (s : List Char)
    (k : List Char → Option α) (r : α) (h : starRun p s k = some r) :
    ∃ w s1, s = w ++ s1 ∧ (∀ c ∈ w, p c = true) ∧ k s1 = some r := by
  induction s with
  | nil => exact ⟨[], [], rfl, by simp, h⟩
  | cons c t ih =>
    unfold starRun at h
    split at h
    · rename_i hp
      split at h
      · rename_i r1 hr
        cases h
        obtain ⟨w, s1, hs, hw, hk⟩ := ih hr
        exact ⟨c :: w, s1, by simp [hs], by simpa [hp] using hw, hk⟩
      · exact ⟨[], c :: t, rfl, by simp, h⟩
    · exact ⟨[], c :: t, rfl, by simp, h⟩

theorem Regex.run_sound {α : Type} (re : Regex) :
    ∀ (s : List Char) (cs : Caps) (k : List Char → Caps → Option α) (r : α),
      re.run s cs k = some r → ∃ s1 cs1, re.Matches s cs s1 cs1 ∧ k s1 cs1 = some r := by
  induction re with
  | empty => intro s cs k r h; exact ⟨s, cs, ⟨rfl, rfl⟩, h⟩
  | cls p =>
    intro s cs k r h
    cases s with
    | nil => simp [Regex.run] at h
    | cons c t =>
      simp only [Regex.run] at h
      split at h
      · rename_i hp
        exact ⟨t, cs, ⟨c, rfl, hp, rfl⟩, h⟩
      · cases h
  | cat a b iha ihb =>
    intro s cs k r h
    simp only [Regex.run] at h
    obtain ⟨s2, cs2, ha, h2⟩ := iha _ _ _ _ h
    obtain ⟨s1, cs1, hb, h1⟩ := ihb _ _ _ _ h2
    exact ⟨s1, cs1, ⟨s2, cs2, ha, hb⟩, h1⟩
  | quest a iha =>
    intro s cs k r h
    simp only [Regex.run] at h
    split at h
    · rename_i r1 hr
      cases h
      obtain ⟨s1, cs1, ha, h1⟩ := iha _ _ _ _ hr
      exact ⟨s1, cs1, Or.inl ha, h1⟩
    · exact ⟨s, cs, Or.inr ⟨rfl, rfl⟩, h⟩
  | starCls p =>
    intro s cs k r h
    simp only [Regex.run] at h
    obtain ⟨w, s1, hs, hw, hk⟩ := starRun_sound p s _ r h
    exact ⟨s1, cs, ⟨⟨w, hs, hw⟩, rfl⟩, hk⟩
  | cap n a iha =>
    intro s cs k r h
    simp only [Regex.run] at h
    obtain ⟨s1, cs1, ha, h1⟩ := iha _ _ _ _ h
    exact ⟨s1, _, ⟨cs1, ha, rfl⟩, h1⟩

theorem starRun_complete {α : Type} (p : Char → Bool) (w s1 : List Char)
    (k : List Char → Option α) (hw : ∀ c ∈ w, p c = true) (hk : (k s1).isSome = true) :
    (starRun p (w ++ s1) k).isSome = true := by
  induction w with
  | nil =>
    cases s1 with
    | nil => simpa [starRun] using hk
    | cons c t =>
      simp only [List.nil_append]
      unfold starRun
      split
      · split
        · rfl
        · exact hk
      · exact hk
  | cons c t ih =>
    have hc : p c = true := hw c (by simp)
    have ht := ih (fun x hx => hw x (by simp [hx]))
    simp only [List.cons_append]
    unfold starRun
    rw [if_pos hc]
    split
    · rfl
    · rename_i hn
      rw [hn] at ht
      cases ht

theorem Regex.run_complete {α : Type} (re : Regex) :
    ∀ (s : List Char) (cs : Caps) (s1 : List Char) (cs1 : Caps)
      (k : List Char → Caps → Option α),
      re.Matches s cs s1 cs1 → (k s1 cs1).isSome = true → (re.run s cs k).isSome = true := by
  induction re with
  | empty =>
    intro s cs s1 cs1 k hm hk
    obtain ⟨rfl, rfl⟩ := hm
    exact hk
  | cls p =>
    intro s cs s1 cs1 k hm hk
    obtain ⟨c, rfl, hp, rfl⟩ := hm
    simpa [Regex.run, hp] using hk
  | cat a b iha ihb =>
    intro s cs s1 cs1 k hm hk
    obtain ⟨s2, cs2, ha, hb⟩ := hm
    simp only [Regex.run]
    exact iha _ _ _ _ _ ha (ihb _ _ _ _ _ hb hk)
  | quest a iha =>
    intro s cs s1 cs1 k hm hk
    simp only [Regex.run]
    rcases hm with ha | ⟨rfl, rfl⟩
    · have := iha _ _ _ _ k ha hk
      split
      · rfl
      · rename_i hn
        rw [hn] at this
        cases this
    · split
      · rfl
      · exact hk
  | starCls p =>
    intro s cs s1 cs1 k hm hk
    obtain ⟨⟨w, rfl, hw⟩, rfl⟩ := hm
    simp only [Regex.run]
    exact starRun_complete p w s1 _ hw hk
  | cap n a iha =>
    intro s cs s1 cs1 k hm hk
    obtain ⟨cs2, ha, rfl⟩ := hm
    simp only [Regex.run]
    exact iha _ _ _ _ _ ha hk

theorem Regex.Matches_suffix (re : Regex) :
    ∀ (s : List Char) (cs : Caps) (s1 : List Char) (cs1 : Caps),
      re.Matches s cs s1 cs1 → ∃ w, s = w ++ s1 := by
  induction re with
  | empty => intro s cs s1 cs1 h; exact ⟨[], by simp [h.1]⟩
  | cls p => intro s cs s1 cs1 h; obtain ⟨c, rfl, _, _⟩ := h; exact ⟨[c], rfl⟩
  | cat a b iha ihb =>
    intro s cs s1 cs1 h
    obtain ⟨s2, cs2, ha, hb⟩ := h
    obtain ⟨u, rfl⟩ := iha _ _ _ _ ha
    obtain ⟨v, rfl⟩ := ihb _ _ _ _ hb
    exact ⟨u ++ v, by simp⟩
  | quest a iha =>
    intro s cs s1 cs1 h
    rcases h with ha | ⟨rfl, _⟩
    · exact iha _ _ _ _ ha
    · exact ⟨[], rfl⟩
  | starCls p => intro s cs s1 cs1 h; obtain ⟨⟨w, hw, _⟩, _⟩ := h; exact ⟨w, hw⟩
  | cap n a iha => intro s cs s1 cs1 h; obtain ⟨cs2, ha, _⟩ := h; exact iha _ _ _ _ ha

theorem Matches_cat (a b : Regex) (s : List Char) (cs : Caps) (s1 : List Char) (cs1 : Caps) :
    (Regex.cat a b).Matches s cs s1 cs1 ↔
      ∃ s2 cs2, a.Matches s cs s2 cs2 ∧ b.Matches s2 cs2 s1 cs1 := Iff.rfl

theorem Matches_cls (p : Char → Bool) (s : List Char) (cs : Caps) (s1 : List Char)
    (cs1 : Caps) :
    (Regex.cls p).Matches s cs s1 cs1 ↔ ∃ c, s = c :: s1 ∧ p c = true ∧ cs1 = cs := Iff.rfl

theorem Matches_cap (n : Nat) (a : Regex) (s : List Char) (cs : Caps) (s1 : List Char)
    (cs1 : Caps) :
    (Regex.cap n a).Matches s cs s1 cs1 ↔
      ∃ cs2, a.Matches s cs s1 cs2 ∧ cs1 = (n, s.take (s.length - s1.length)) :: cs2 :=
  Iff.rfl

theorem Matches_times_cls (p : Char → Bool) (n : Nat) (s : List Char) (cs : Caps)
    (s1 : List Char) (cs1 : Caps) :
    (Regex.times n (.cls p)).Matches s cs s1 cs1 ↔
      ∃ w, s = w ++ s1 ∧ w.length = n ∧ (∀ c ∈ w, p c = true) ∧ cs1 = cs := by
  induction n generalizing s cs with
  | zero =>
    constructor
    · rintro ⟨rfl, rfl⟩
      exact ⟨[], rfl, rfl, by simp, rfl⟩
    · rintro ⟨w, rfl, hw, _, rfl⟩
      have : w = [] := List.length_eq_zero.mp hw
      subst this
      exact ⟨rfl, rfl⟩
  | succ n ih =>
    constructor
    · rintro ⟨s2, cs2, ⟨c, rfl, hp, rfl⟩, h2⟩
      obtain ⟨w, rfl, hl, hw, rfl⟩ := (ih _ _).mp h2
      exact ⟨c :: w, rfl, by simp [hl], by simpa [hp] using hw, rfl⟩
    · rintro ⟨w, rfl, hl, hw, rfl⟩
      cases w with
      | nil => simp at hl
      | cons c t =>
        refine ⟨t ++ s1, cs1, ⟨c, rfl, hw c (by simp), rfl⟩, (ih _ _).mpr ?_⟩
        exact ⟨t, rfl, by simpa using hl, fun x hx => hw x (by simp [hx]), rfl⟩

theorem Matches_upTo_cls (p : Char → Bool) (n : Nat) (s : List Char) (cs : Caps)
    (s1 : List Char) (cs1 : Caps) :
    (Regex.upTo n (.cls p)).Matches s cs s1 cs1 ↔
      ∃ w, s = w ++ s1 ∧ w.length ≤ n ∧ (∀ c ∈ w, p c = true) ∧ cs1 = cs := by
  induction n generalizing s cs with
  | zero =>
    constructor
    · rintro ⟨rfl, rfl⟩
      exact ⟨[], rfl, by simp, by simp, rfl⟩
    · rintro ⟨w, rfl, hw, _, rfl⟩
      have : w = [] := List.length_eq_zero.mp (Nat.le_zero.mp hw)
      subst this
      exact ⟨rfl, rfl⟩
  | succ n ih =>
    constructor
    · rintro (⟨s2, cs2, ⟨c, rfl, hp, rfl⟩, h2⟩ | ⟨rfl, rfl⟩)
      · obtain ⟨w, rfl, hl, hw, rfl⟩ := (ih _ _).mp h2
        exact ⟨c :: w, rfl, by simp [hl], by simpa [hp] using hw, rfl⟩
      · exact ⟨[], rfl, by simp, by simp, rfl⟩
    · rintro ⟨w, rfl, hl, hw, rfl⟩
      cases w with
      | nil => exact Or.inr ⟨rfl, rfl⟩
      | cons c t =>
        refine Or.inl ⟨t ++ s1, cs1, ⟨c, rfl, hw c (by simp), rfl⟩, (ih _ _).mpr ?_⟩
        exact ⟨t, rfl, by simpa using hl, fun x hx => hw x (by simp [hx]), rfl⟩

theorem Matches_rep_cls (p : Char → Bool) (lo hi : Nat) (hle : lo ≤ hi) (s : List Char)
    (cs : Caps) (s1 : List Char) (cs1 : Caps) :
    (Regex.rep lo hi (.cls p)).Matches s cs s1 cs1 ↔
      ∃ w, s = w ++ s1 ∧ lo ≤ w.length ∧ w.length ≤ hi ∧ (∀ c ∈ w, p c = true) ∧ cs1 = cs := by
  unfold Regex.rep
  constructor
  · rintro ⟨s2, cs2, h1, h2⟩
    obtain ⟨u, rfl, hu, hpu, rfl⟩ := (Matches_times_cls _ _ _ _ _ _).mp h1
    obtain ⟨v, rfl, hv, hpv, rfl⟩ := (Matches_upTo_cls _ _ _ _ _ _).mp h2
    refine ⟨u ++ v, by simp, by simp [hu], by simp [hu]; omega, ?_, rfl⟩
    intro c hc
    rcases List.mem_append.mp hc with h | h
    · exact hpu c h
    · exact hpv c h
  · rintro ⟨w, rfl, h1, h2, hw, rfl⟩
    refine ⟨w.drop lo ++ s1, cs1, (Matches_times_cls _ _ _ _ _ _).mpr ?_,
      (Matches_upTo_cls _ _ _ _ _ _).mpr ?_⟩
    · refine ⟨w.take lo, ?_, by simp [h1], fun c hc => hw c (List.mem_of_mem_take hc), rfl⟩
      rw [← List.append_assoc, List.take_append_drop]
    · exact ⟨w.drop lo, rfl, by simp; omega, fun c hc => hw c (List.mem_of_mem_drop hc), rfl⟩

theorem Matches_rep01 (x : Regex) (s : List Char) (cs : Caps) (s1 : List Char) (cs1 : Caps) :
    (Regex.rep 0 1 x).Matches s cs s1 cs1 ↔ x.Matches s cs s1 cs1 ∨ (s1 = s ∧ cs1 = cs) := by
  constructor
  · rintro ⟨s2, cs2, ⟨rfl, rfl⟩, h⟩
    rcases h with ⟨s3, cs3, hx, rfl, rfl⟩ | h
    · exact Or.inl hx
    · exact Or.inr h
  · rintro (hx | h)
    · exact ⟨s, cs, ⟨rfl, rfl⟩, Or.inl ⟨s1, cs1, hx, rfl, rfl⟩⟩
    · exact ⟨s, cs, ⟨rfl, rfl⟩, Or.inr h⟩

theorem take_append_sub (w s1 : List Char) :
    (w ++ s1).take ((w ++ s1).length - s1.length) = w := by
  simp

/-! ## The grammar: what a match looks like -/

theorem Matches_dateRe (s : List Char) (cs : Caps) (s1 : List Char) (cs1 : Caps) :
    dateRe.Matches s cs s1 cs1 ↔ ∃ d, s = d ++ s1 ∧ DateShape d ∧ cs1 = cs := by
  unfold dateRe
  simp only [Matches_cat, Matches_cls, Matches_rep_cls _ 2 4 (by decide),
    Matches_rep_cls _ 2 2 (by decide)]
  constructor
  · rintro ⟨_, _, ⟨y, rfl, hy2, hy4, hy, rfl⟩, _, _, ⟨c1, rfl, hc1, rfl⟩, _, _,
      ⟨mo, rfl, hm2, hm2', hmo, rfl⟩, _, _, ⟨c2, rfl, hc2, rfl⟩, da, rfl, hd2, hd2', hda, rfl⟩
    exact ⟨y ++ c1 :: (mo ++ c2 :: da), by simp,
      ⟨y, mo, da, c1, c2, rfl, hy2, hy4, by omega, by omega, hy, hmo, hda, hc1, hc2⟩, rfl⟩
  · rintro ⟨d, rfl, ⟨y, mo, da, c1, c2, rfl, hy2, hy4, hm, hd, hy, hmo, hda, hc1, hc2⟩, rfl⟩
    exact ⟨c1 :: (mo ++ c2 :: (da ++ s1)), cs1, ⟨y, by simp, hy2, hy4, hy, rfl⟩,
      mo ++ c2 :: (da ++ s1), cs1, ⟨c1, rfl, hc1, rfl⟩,
      c2 :: (da ++ s1), cs1, ⟨mo, by simp, by omega, by omega, hmo, rfl⟩,
      da ++ s1, cs1, ⟨c2, rfl, hc2, rfl⟩, da, rfl, by omega, by omega, hda, rfl⟩

theorem Matches_timeRe (s : List Char) (cs : Caps) (s1 : List Char) (cs1 : Caps)
    (h : timeRe.Matches s cs s1 cs1) : ∃ t, s = t ++ s1 ∧ TimeShape t ∧ cs1 = cs := by
  unfold timeRe at h
  simp only [Matches_cat, Matches_rep_cls _ 0 2 (by decide), Matches_rep_cls _ 0 1 (by decide)]
    at h
  obtain ⟨_, _, ⟨a, rfl, _, ha2, ha, rfl⟩, _, _, ⟨c1, rfl, _, hc1, hc1', rfl⟩, _, _,
    ⟨b, rfl, _, hb2, hb, rfl⟩, _, _, ⟨c2, rfl, _, hc2, hc2', rfl⟩, c, rfl, _, hc, hc', rfl⟩ := h
  exact ⟨a ++ (c1 ++ (b ++ (c2 ++ c))), by simp,
    ⟨a, c1, b, c2, c, rfl, ha2, hc1, hb2, hc2, hc, ha, hc1', hb, hc2', hc'⟩, rfl⟩

theorem TimeShape_nil : TimeShape [] :=
  ⟨[], [], [], [], [], rfl, by simp, by simp, by simp, by simp, by simp, by simp, by simp,
    by simp, by simp, by simp⟩

/-- What a match of `tailRe` looks like: the consumed text splits into the
optional separator, the groups 2 to 6 and the optional dot, and the registers
hold exactly these groups. -/
theorem Matches_tailRe (s : List Char) (cs : Caps) (s1 : List Char) (cs1 : Caps)
    (h : tailRe.Matches s cs s1 cs1) :
    ∃ sp t dot f mk sg off,
      s = sp ++ (t ++ (dot ++ (f ++ (mk ++ (sg ++ (off ++ s1)))))) ∧
      (sp.length ≤ 1 ∧ ∀ c ∈ sp, isSpaceOrT c = true) ∧
      TimeShape t ∧
      (dot.length ≤ 1 ∧ ∀ c ∈ dot, isDot c = true) ∧
      (f.length ≤ 9 ∧ ∀ c ∈ f, isDigit c = true) ∧
      (mk.length ≤ 1 ∧ ∀ c ∈ mk, isSpaceOrZ c = true) ∧
      (sg.length ≤ 1 ∧ ∀ c ∈ sg, isSign c = true) ∧
      (∀ c ∈ off, isColonOrDigit c = true) ∧
      (cs1 = (6, off) :: (5, sg) :: (4, mk) :: (3, f) :: (2, t) :: cs ∨
        (t = [] ∧ cs1 = (6, off) :: (5, sg) :: (4, mk) :: (3, f) :: cs)) := by
  unfold tailRe at h
  simp only [Matches_cat, Matches_rep_cls _ 0 1 (by decide), Matches_rep_cls _ 0 9 (by decide),
    Matches_rep01, Matches_cap] at h
  obtain ⟨_, _, ⟨sp, rfl, _, hsp, hsp', rfl⟩, s3, cs3, h2, _, _, ⟨dot, rfl, _, hdot, hdot', rfl⟩,
    _, _, ⟨_, ⟨f, rfl, _, hf, hf', rfl⟩, rfl⟩, _, _, ⟨_, ⟨mk, rfl, _, hmk, hmk', rfl⟩, rfl⟩,
    _, _, ⟨_, ⟨sg, rfl, _, hsg, hsg', rfl⟩, rfl⟩, _, ⟨⟨off, rfl, hoff⟩, rfl⟩, rfl⟩ := h
  simp only [take_append_sub]
  rcases h2 with ⟨_, ht, rfl⟩ | ⟨rfl, rfl⟩
  · obtain ⟨t, rfl, hts, rfl⟩ := Matches_timeRe _ _ _ _ ht
    refine ⟨sp, t, dot, f, mk, sg, off, rfl, ⟨hsp, hsp'⟩, hts, ⟨hdot, hdot'⟩, ⟨hf, hf'⟩,
      ⟨hmk, hmk'⟩, ⟨hsg, hsg'⟩, hoff, Or.inl ?_⟩
    simp only [take_append_sub]
  · exact ⟨sp, [], dot, f, mk, sg, off, rfl, ⟨hsp, hsp'⟩, TimeShape_nil, ⟨hdot, hdot'⟩,
      ⟨hf, hf'⟩, ⟨hmk, hmk'⟩, ⟨hsg, hsg'⟩, hoff, Or.inr ⟨rfl, rfl⟩⟩

/-- Everything after the date is optional: `tailRe` matches the empty string
at any position. -/
theorem tailRe_matches_empty (s : List Char) (cs : Caps) :
    tailRe.Matches s cs s ((6, []) :: (5, []) :: (4, []) :: (3, []) :: cs) := by
  unfold tailRe Regex.rep
  simp only [Regex.Matches, Regex.times, Regex.upTo, Nat.sub_zero]
  refine ⟨s, cs, ⟨s, cs, ⟨rfl, rfl⟩, Or.inr ⟨rfl, rfl⟩⟩, s, cs,
    ⟨s, cs, ⟨rfl, rfl⟩, Or.inr ⟨rfl, rfl⟩⟩, s, cs,
    ⟨s, cs, ⟨rfl, rfl⟩, Or.inr ⟨rfl, rfl⟩⟩, s, (3, []) :: cs, ?_, s, (4, []) :: (3, []) :: cs, ?_,
    s, (5, []) :: (4, []) :: (3, []) :: cs, ?_, ?_⟩
  · exact ⟨cs, ⟨s, cs, ⟨rfl, rfl⟩, Or.inr ⟨rfl, rfl⟩⟩, by simp⟩
  · exact ⟨_, ⟨s, _, ⟨rfl, rfl⟩, Or.inr ⟨rfl, rfl⟩⟩, by simp⟩
  · exact ⟨_, ⟨s, _, ⟨rfl, rfl⟩, Or.inr ⟨rfl, rfl⟩⟩, by simp⟩
  · exact ⟨_, ⟨⟨[], rfl, by simp⟩, rfl⟩, by simp⟩

theorem search_some (re : Regex) (str : List Char) (cs : Caps)
    (h : search re str = some cs) :
    ∃ pre t, str = pre ++ t ∧ re.run t [] (fun _ cs => some cs) = some cs := by
  induction str with
  | nil => exact ⟨[], [], rfl, h⟩
  | cons c t ih =>
    unfold search at h
    split at h
    · rename_i r hr
      cases h
      exact ⟨[], c :: t, rfl, hr⟩
    · obtain ⟨pre, u, hu, hrun⟩ := ih h
      exact ⟨c :: pre, u, by simp [hu], hrun⟩

theorem search_isSome (re : Regex) (pre t : List Char)
    (h : (re.run t [] (fun _ cs => some cs)).isSome = true) :
    (search re (pre ++ t)).isSome = true := by
  induction pre with
  | nil =>
    cases t with
    | nil => exact h
    | cons c u =>
      simp only [List.nil_append]
      unfold search
      split
      · rfl
      · rename_i hn
        rw [hn] at h
        cases h
  | cons c u ih =>
    simp only [List.cons_append]
    unfold search
    split
    · rfl
    · exact ih

theorem search_pattern_isSome_iff (str : List Char) :
    (search TIME_REAGEX_PATTERN str).isSome = true ↔ ContainsDate str := by
  constructor
  · intro h
    obtain ⟨cs, hcs⟩ := Option.isSome_iff_exists.mp h
    obtain ⟨pre, t, rfl, hrun⟩ := search_some _ _ _ hcs
    obtain ⟨s1, cs1, hm, _⟩ := Regex.run_sound _ _ _ _ _ hrun
    obtain ⟨cs2, ⟨s2, cs3, ⟨cs4, hd, _⟩, htl⟩, _⟩ := hm
    obtain ⟨d, rfl, hshape, _⟩ := (Matches_dateRe _ _ _ _).mp hd
    exact ⟨pre, d, s2, by simp, hshape⟩
  · rintro ⟨pre, d, post, rfl, hd⟩
    rw [List.append_assoc]
    apply search_isSome
    have hm : TIME_REAGEX_PATTERN.Matches (d ++ post) [] post
        ((0, (d ++ post).take ((d ++ post).length - post.length)) ::
          (6, []) :: (5, []) :: (4, []) :: (3, []) ::
          [(1, (d ++ post).take ((d ++ post).length - post.length))]) :=
      ⟨_, ⟨post, _, ⟨[], (Matches_dateRe _ _ _ _).mpr ⟨d, rfl, hd, rfl⟩, rfl⟩,
        tailRe_matches_empty _ _⟩, rfl⟩
    exact Regex.run_complete _ _ _ _ _ _ hm rfl

/-- Shape of every successful match: the input splits around the matched text,
the matched text is the concatenation of the pieces of the grammar, and the
seven strings returned are the whole match and the six groups. -/
theorem FindStringSubmatch_shape (str : List Char) :
    FindStringSubmatch str = [] ∨
    ∃ pre post sp dot d t f mk sg off,
      str = pre ++ (d ++ (sp ++ (t ++ (dot ++ (f ++ (mk ++ (sg ++ off))))))) ++ post ∧
      FindStringSubmatch str =
        [d ++ (sp ++ (t ++ (dot ++ (f ++ (mk ++ (sg ++ off)))))), d, t, f, mk, sg, off] ∧
      GroupShapes d t f mk sg off ∧
      (sp.length ≤ 1 ∧ ∀ c ∈ sp, isSpaceOrT c = true) ∧
      (dot.length ≤ 1 ∧ ∀ c ∈ dot, isDot c = true) := by
  unfold FindStringSubmatch
  cases hs : search TIME_REAGEX_PATTERN str with
  | none => exact Or.inl rfl
  | some cs =>
    right
    obtain ⟨pre, t0, rfl, hrun⟩ := search_some _ _ _ hs
    obtain ⟨s1, cs1, hm, hk⟩ := Regex.run_sound _ _ _ _ _ hrun
    cases hk
    obtain ⟨cs2, ⟨s2, cs3, ⟨cs4, hd, rfl⟩, htl⟩, rfl⟩ := hm
    obtain ⟨d, rfl, hshape, rfl⟩ := (Matches_dateRe _ _ _ _).mp hd
    obtain ⟨sp, t, dot, f, mk, sg, off, rfl, hsp, ht, hdot, hf, hmk, hsg, hoff, hcs⟩ :=
      Matches_tailRe _ _ _ _ htl
    refine ⟨pre, s1, sp, dot, d, t, f, mk, sg, off, by simp, ?_,
      ⟨hshape, ht, hf, hmk, hsg, hoff⟩, hsp, hdot⟩
    have e0 : (d ++ (sp ++ (t ++ (dot ++ (f ++ (mk ++ (sg ++ (off ++ s1)))))))) =
        (d ++ (sp ++ (t ++ (dot ++ (f ++ (mk ++ (sg ++ off))))))) ++ s1 := by simp
    rw [e0, take_append_sub]
    simp only [take_append_sub] at hcs
    rcases hcs with rfl | ⟨rfl, rfl⟩ <;>
      simp [List.range, List.range.loop, capGet]

theorem shapes_of_match (str m0 d t f mk sg off : List Char)
    (h : FindStringSubmatch str = [m0, d, t, f, mk, sg, off]) : GroupShapes d t f mk sg off := by
  rcases FindStringSubmatch_shape str with h0 | ⟨_, _, _, _, d1, t1, f1, mk1, sg1, off1, _, h1, hs, _⟩
  · rw [h0] at h
    cases h
  · rw [h1] at h
    simp only [List.cons.injEq, and_true] at h
    obtain ⟨_, rfl, rfl, rfl, rfl, rfl, rfl⟩ := h
    exact hs

/-! ## Digit characters and `strconv.Atoi` -/

theorem dig_facts (n : Nat) :
    isDigit (dig n) = true ∧ digitVal (dig n) = n % 10 ∧ isDateSep (dig n) = false ∧
    isColon (dig n) = false ∧ isDot (dig n) = false ∧ isSpaceOrT (dig n) = false ∧
    isSpaceOrZ (dig n) = false ∧ isSign (dig n) = false ∧ isColonOrDigit (dig n) = true ∧
    dig n ≠ '-' ∧ dig n ≠ '+' ∧ dig n ≠ '/' ∧ dig n ≠ ':' := by
  have key : ∀ m : Fin 10, isDigit (Char.ofNat (48 + m.val)) = true ∧
      digitVal (Char.ofNat (48 + m.val)) = m.val ∧
      isDateSep (Char.ofNat (48 + m.val)) = false ∧
      isColon (Char.ofNat (48 + m.val)) = false ∧ isDot (Char.ofNat (48 + m.val)) = false ∧
      isSpaceOrT (Char.ofNat (48 + m.val)) = false ∧
      isSpaceOrZ (Char.ofNat (48 + m.val)) = false ∧
      isSign (Char.ofNat (48 + m.val)) = false ∧
      isColonOrDigit (Char.ofNat (48 + m.val)) = true ∧
      Char.ofNat (48 + m.val) ≠ '-' ∧ Char.ofNat (48 + m.val) ≠ '+' ∧
      Char.ofNat (48 + m.val) ≠ '/' ∧ Char.ofNat (48 + m.val) ≠ ':' := by decide
  exact key ⟨n % 10, Nat.mod_lt _ (by decide)⟩

theorem isDigit_dig (n : Nat) : isDigit (dig n) = true := (dig_facts n).1

theorem digitVal_dig (n : Nat) : digitVal (dig n) = n % 10 := (dig_facts n).2.1

theorem isDateSep_dig (n : Nat) : isDateSep (dig n) = false := (dig_facts n).2.2.1

theorem isColon_dig (n : Nat) : isColon (dig n) = false := (dig_facts n).2.2.2.1

theorem isDot_dig (n : Nat) : isDot (dig n) = false := (dig_facts n).2.2.2.2.1

theorem isSpaceOrT_dig (n : Nat) : isSpaceOrT (dig n) = false :=
  (dig_facts n).2.2.2.2.2.1

theorem isSpaceOrZ_dig (n : Nat) : isSpaceOrZ (dig n) = false :=
  (dig_facts n).2.2.2.2.2.2.1

theorem isSign_dig (n : Nat) : isSign (dig n) = false :=
  (dig_facts n).2.2.2.2.2.2.2.1

theorem isColonOrDigit_dig (n : Nat) : isColonOrDigit (dig n) = true :=
  (dig_facts n).2.2.2.2.2.2.2.2.1

theorem dig_ne_minus (n : Nat) : (dig n = '-') = False :=
  eq_false (dig_facts n).2.2.2.2.2.2.2.2.2.1

theorem dig_ne_plus (n : Nat) : (dig n = '+') = False :=
  eq_false (dig_facts n).2.2.2.2.2.2.2.2.2.2.1

theorem dig_ne_slash (n : Nat) : (dig n = '/') = False :=
  eq_false (dig_facts n).2.2.2.2.2.2.2.2.2.2.2.1

theorem dig_ne_colon (n : Nat) : (dig n = ':') = False :=
  eq_false (dig_facts n).2.2.2.2.2.2.2.2.2.2.2.2

theorem digitChar_eq_dig (n : Nat) (h : n < 10) : digitChar n = dig n := by
  unfold digitChar dig
  rw [Nat.mod_eq_of_lt h]

theorem digitChar_sub (u v : Nat) (h : v = u / 10) : digitChar (u - v * 10) = dig u := by
  unfold digitChar dig
  congr 2
  omega

theorem appendInt_two (n : Nat) (h : n < 100) : appendInt n 2 = [dig (n / 10), dig n] := by
  unfold appendInt
  by_cases h1 : n < 10
  · have h0 : n / 10 = 0 := by omega
    have hz : dig 0 = '0' := by decide
    simp [decimalRev, Nat.not_le.mpr h1, digitChar_eq_dig n h1, h0, hz]
  · have h2 : n / 10 < 10 := by omega
    simp [decimalRev, Nat.not_lt.mp h1, Nat.not_le.mpr h2, digitChar_sub n (n / 10) rfl,
      digitChar_eq_dig _ h2, List.replicate]

theorem appendInt_four (n : Nat) (hlo : 100 ≤ n) (h : n < 10000) :
    appendInt n 4 = [dig (n / 1000), dig (n / 100), dig (n / 10), dig n] := by
  unfold appendInt
  have g1 : n ≥ 10 := by omega
  have g2 : n / 10 ≥ 10 := by omega
  have d1 : n / 10 / 10 = n / 100 := by omega
  have d2 : n / 100 / 10 = n / 1000 := by omega
  have s0 := digitChar_sub n (n / 10) rfl
  have s1 := digitChar_sub (n / 10) (n / 100) (by omega)
  have s2 := digitChar_sub (n / 100) (n / 1000) (by omega)
  by_cases h1 : n < 1000
  · have h0 : n / 1000 = 0 := by omega
    have h2 : n / 100 < 10 := by omega
    have hz : dig 0 = '0' := by decide
    simp [decimalRev, g1, g2, d1, Nat.not_le.mpr h2, s0, s1,
      digitChar_eq_dig _ h2, h0, hz]
  · have h2 : n / 100 ≥ 10 := by omega
    have h3 : n / 1000 < 10 := by omega
    simp [decimalRev, g1, g2, d1, d2, h2, Nat.not_le.mpr h3, s0, s1, s2,
      digitChar_eq_dig _ h3, List.replicate]

theorem atoiDigits_digits (s : List Char) (acc : Nat) (hs : ∀ c ∈ s, isDigit c = true) :
    atoiDigits s acc = some (acc * 10 ^ s.length + decimalValue s) := by
  induction s generalizing acc with
  | nil => simp [atoiDigits, decimalValue]
  | cons c t ih =>
    have hc : isDigit c = true := hs c (by simp)
    have ht := ih (acc * 10 + digitVal c) (fun x hx => hs x (by simp [hx]))
    unfold atoiDigits
    rw [if_pos hc, ht]
    congr 1
    unfold decimalValue
    simp only [List.reverse_cons, List.map_append, List.map_cons, List.map_nil,
      Nat.ofDigits_append, List.length_map, List.length_reverse, List.length_cons,
      Nat.ofDigits_singleton]
    ring

theorem isDigit_ne_sign (c : Char) (h : isDigit c = true) : ¬ (c = '-' ∨ c = '+') := by
  rintro (rfl | rfl) <;> revert h <;> decide

theorem isDigit_ne_seps (c : Char) (h : isDigit c = true) : c ≠ '-' ∧ c ≠ '/' := by
  constructor <;> rintro rfl <;> revert h <;> decide

theorem Atoi_digits (s : List Char) (hs : ∀ c ∈ s, isDigit c = true) :
    Atoi s = (decimalValue s : Int) := by
  cases s with
  | nil => simp [Atoi, decimalValue]
  | cons c t =>
    unfold Atoi
    simp only
    rw [if_neg (isDigit_ne_sign c (hs c (by simp))), atoiDigits_digits _ _ hs]
    simp

theorem Atoi_dig2 (a b : Nat) : Atoi [dig a, dig b] = ((a % 10 * 10 + b % 10 : Nat) : Int) := by
  simp [Atoi, atoiDigits, isDigit_dig, digitVal_dig, dig_ne_minus, dig_ne_plus]

theorem Atoi_dig4 (a b c d : Nat) :
    Atoi [dig a, dig b, dig c, dig d] =
      ((((a % 10 * 10 + b % 10) * 10 + c % 10) * 10 + d % 10 : Nat) : Int) := by
  simp [Atoi, atoiDigits, isDigit_dig, digitVal_dig, dig_ne_minus, dig_ne_plus]

theorem digitVal_lt (c : Char) (h : isDigit c = true) : digitVal c < 10 := by
  unfold isDigit at h
  unfold digitVal
  simp only [Bool.and_eq_true, decide_eq_true_eq] at h
  have h2 : c.toNat ≤ '9'.toNat := h.2
  have h3 : '9'.toNat = 57 := by decide
  omega

theorem decimalValue_lt (s : List Char) (hs : ∀ c ∈ s, isDigit c = true) :
    decimalValue s < 10 ^ s.length := by
  unfold decimalValue
  have := Nat.ofDigits_lt_base_pow_length (b := 10) (l := s.reverse.map digitVal) (by decide)
    (by
      intro x hx
      simp only [List.mem_map, List.mem_reverse] at hx
      obtain ⟨c, hc, rfl⟩ := hx
      exact digitVal_lt c (hs c hc))
  simpa using this

theorem mulTen_eq (n : Int) (k : Nat) : mulTen n k = n * 10 ^ k := by
  induction k generalizing n with
  | zero => simp [mulTen]
  | succ k ih =>
    unfold mulTen
    rw [ih, pow_succ]
    ring

theorem nsecField_digits (f : List Char) (hf : ∀ c ∈ f, isDigit c = true) :
    nsecField f = if f = [] then 0 else (decimalValue f : Int) * 10 ^ (9 - f.length) := by
  unfold nsecField
  cases f with
  | nil => simp
  | cons c t =>
    simp only [List.length_cons, gt_iff_lt, Nat.zero_lt_succ, if_true, reduceCtorEq, if_false]
    rw [mulTen_eq, Atoi_digits _ hf]

theorem Split_of_not_mem (w : List Char) (sep : Char) (h : sep ∉ w) : Split w sep = [w] := by
  induction w with
  | nil => rfl
  | cons c t ih =>
    have hc : ¬ c = sep := fun e => h (by simp [e])
    have ht := ih (fun e => h (by simp [e]))
    unfold Split
    simp [hc, ht]

theorem Split_append_sep (w r : List Char) (sep : Char) (h : sep ∉ w) :
    Split (w ++ sep :: r) sep = w :: Split r sep := by
  induction w with
  | nil =>
    simp only [List.nil_append]
    rw [Split]
    simp
  | cons c t ih =>
    have hc : ¬ c = sep := fun e => h (by simp [e])
    have ht := ih (fun e => h (by simp [e]))
    simp only [List.cons_append]
    rw [Split]
    simp [hc, ht]

/-- The code's split of a date whose two separators are the same character:
the three digit runs. -/
theorem dateArray_same_sep (ys mo da : List Char) (c : Char) (hc : isDateSep c = true)
    (hy : ∀ x ∈ ys, isDigit x = true) (hm : ∀ x ∈ mo, isDigit x = true)
    (hd : ∀ x ∈ da, isDigit x = true) :
    dateArray (ys ++ c :: (mo ++ c :: da)) = [ys, mo, da] := by
  have n1 : ∀ w : List Char, (∀ x ∈ w, isDigit x = true) → '-' ∉ w ∧ '/' ∉ w := by
    intro w hw
    exact ⟨fun e => (isDigit_ne_seps _ (hw _ e)).1 rfl, fun e => (isDigit_ne_seps _ (hw _ e)).2 rfl⟩
  unfold isDateSep at hc
  simp only [Bool.or_eq_true, beq_iff_eq] at hc
  unfold dateArray
  rcases hc with rfl | rfl
  · rw [Split_append_sep _ _ _ (n1 ys hy).1, Split_append_sep _ _ _ (n1 mo hm).1,
      Split_of_not_mem _ _ (n1 da hd).1]
    simp
  · have hno : '-' ∉ ys ++ '/' :: (mo ++ '/' :: da) := by
      simp only [List.mem_append, List.mem_cons, not_or]
      exact ⟨(n1 ys hy).1, by decide, (n1 mo hm).1, by decide, (n1 da hd).1⟩
    rw [Split_of_not_mem _ _ hno, Split_append_sep _ _ _ (n1 ys hy).2,
      Split_append_sep _ _ _ (n1 mo hm).2, Split_of_not_mem _ _ (n1 da hd).2]
    simp

/-! ## The match on inputs of a fixed layout -/

theorem find_datetime (a b c d e f g h i j k l m n : Nat) :
    FindStringSubmatch [dig a, dig b, dig c, dig d, '-', dig e, dig f, '-', dig g, dig h, ' ',
      dig i, dig j, ':', dig k, dig l, ':', dig m, dig n] =
    [[dig a, dig b, dig c, dig d, '-', dig e, dig f, '-', dig g, dig h, ' ',
      dig i, dig j, ':', dig k, dig l, ':', dig m, dig n],
     [dig a, dig b, dig c, dig d, '-', dig e, dig f, '-', dig g, dig h],
     [dig i, dig j, ':', dig k, dig l, ':', dig m, dig n], [], [], [], []] := by
  have e1 : isDateSep '-' = true := by decide
  have e2 : isSpaceOrT ' ' = true := by decide
  have e3 : isColon ':' = true := by decide
  simp [FindStringSubmatch, search, TIME_REAGEX_PATTERN, tailRe, dateRe, timeRe, Regex.rep,
    Regex.times, Regex.upTo, Regex.run, starRun, e1, e2, e3, capGet, List.range, List.range.loop,
    isDigit_dig, isDateSep_dig, isColon_dig, isDot_dig, isSpaceOrT_dig, isSpaceOrZ_dig,
    isSign_dig, isColonOrDigit_dig]

/-- The match on an input `YYYY-MM-DDTHH:MM:SS[.fraction]Z` whose fraction has
at most 9 digits: the marker group is `Z` and the offset group is empty. -/
theorem find_utc_marker (a b c d e f g h i j k l m n : Nat) (fr : List Nat)
    (hfr : fr.length ≤ 9) :
    FindStringSubmatch ([dig a, dig b, dig c, dig d, '-', dig e, dig f, '-', dig g, dig h, 'T',
      dig i, dig j, ':', dig k, dig l, ':', dig m, dig n] ++
      ((if fr = [] then [] else '.' :: fr.map dig) ++ ['Z'])) =
    [[dig a, dig b, dig c, dig d, '-', dig e, dig f, '-', dig g, dig h, 'T',
      dig i, dig j, ':', dig k, dig l, ':', dig m, dig n] ++
      ((if fr = [] then [] else '.' :: fr.map dig) ++ ['Z']),
     [dig a, dig b, dig c, dig d, '-', dig e, dig f, '-', dig g, dig h],
     [dig i, dig j, ':', dig k, dig l, ':', dig m, dig n], fr.map dig, ['Z'], [], []] := by
  have e1 : isDateSep '-' = true := by decide
  have e2 : isSpaceOrT 'T' = true := by decide
  have e3 : isColon ':' = true := by decide
  have e4 : isDot '.' = true := by decide
  have e5 : isSpaceOrZ 'Z' = true := by decide
  have e6 : isDigit 'Z' = false := by decide
  have e7 : isDigit '.' = false := by decide
  have e8 : isColon '.' = false := by decide
  have e9 : isColon 'Z' = false := by decide
  have e10 : isDot 'Z' = false := by decide
  have e11 : isSign 'Z' = false := by decide
  have e12 : isColonOrDigit 'Z' = false := by decide
  match fr, hfr with
  | [], _ =>
    simp [FindStringSubmatch, search, TIME_REAGEX_PATTERN, tailRe, dateRe, timeRe, Regex.rep,
      Regex.times, Regex.upTo, Regex.run, starRun, e1, e2, e3, e4, e5, e6, e7, e8, e9, e10, e11,
      e12, capGet, List.range, List.range.loop,
      isDigit_dig, isDateSep_dig, isColon_dig, isDot_dig, isSpaceOrT_dig, isSpaceOrZ_dig,
      isSign_dig, isColonOrDigit_dig]
  | [_], _ | [_, _], _ | [_, _, _], _ | [_, _, _, _], _ | [_, _, _, _, _], _
  | [_, _, _, _, _, _], _ | [_, _, _, _, _, _, _], _ | [_, _, _, _, _, _, _, _], _
  | [_, _, _, _, _, _, _, _, _], _ =>
    simp [FindStringSubmatch, search, TIME_REAGEX_PATTERN, tailRe, dateRe, timeRe, Regex.rep,
      Regex.times, Regex.upTo, Regex.run, starRun, e1, e2, e3, e4, e5, e6, e7, e8, e9, e10, e11,
      e12, capGet, List.range, List.range.loop,
      isDigit_dig, isDateSep_dig, isColon_dig, isDot_dig, isSpaceOrT_dig, isSpaceOrZ_dig,
      isSign_dig, isColonOrDigit_dig]
  | _ :: _ :: _ :: _ :: _ :: _ :: _ :: _ :: _ :: _ :: _, hlen =>
    simp only [List.length_cons] at hlen
    omega

/-! ## The body of `StrToTime` -/

theorem StrToTime_of_match (str m0 d t f mk sg off : List Char) (nowYear localOffset : Int)
    (h : FindStringSubmatch str = [m0, d, t, f, mk, sg, off]) :
    StrToTime str nowYear localOffset = fromGroups d t f mk sg off nowYear localOffset := by
  unfold StrToTime
  simp [h]

theorem fromGroups_ne_unsupported (date time frac marker sign offset : List Char)
    (nowYear localOffset : Int) :
    fromGroups date time frac marker sign offset nowYear localOffset ≠ Outcome.unsupported := by
  unfold fromGroups
  simp only
  split
  · split <;> simp
  · simp

theorem unsupported_iff_search_none (str : List Char) (nowYear localOffset : Int) :
    StrToTime str nowYear localOffset = Outcome.unsupported ↔
      search TIME_REAGEX_PATTERN str = none := by
  unfold StrToTime FindStringSubmatch
  cases h : search TIME_REAGEX_PATTERN str with
  | none => simp
  | some cs =>
    simp only [List.length_map, List.length_range, Nat.lt_irrefl, reduceCtorEq, iff_false]
    simpa using fromGroups_ne_unsupported _ _ _ _ _ _ _ _

theorem fromGroups_ok (d t f mk sg off : List Char) (nowYear localOffset : Int) (tm : Time)
    (h : fromGroups d t f mk sg off nowYear localOffset = Outcome.ok tm) :
    tm.year = (dateFields d nowYear).1 ∧ tm.month = (dateFields d nowYear).2.1 ∧
    tm.day = (dateFields d nowYear).2.2 ∧ tm.nsec = nsecField f := by
  unfold fromGroups at h
  simp only at h
  split at h
  · split at h
    · cases h
    · cases h
      exact ⟨rfl, rfl, rfl, rfl⟩
  · cases h
    exact ⟨rfl, rfl, rfl, rfl⟩

theorem zone_digits (off : List Char) (hoff : ∀ c ∈ off, isColonOrDigit c = true) :
    ∀ c ∈ TrimLeft (ReplaceAllEmpty off ':') "+-".toList, isDigit c = true := by
  intro c hc
  have h1 : c ∈ ReplaceAllEmpty off ':' := (List.dropWhile_sublist _).subset hc
  unfold ReplaceAllEmpty at h1
  rw [List.mem_filter] at h1
  have h2 := hoff c h1.1
  unfold isColonOrDigit at h2
  have h3 := h1.2
  simp only [Bool.not_eq_true', Bool.or_eq_true] at h2 h3
  rcases h2 with h2 | h2
  · rw [h2] at h3
    cases h3
  · exact h2

theorem ReplaceAllEmpty_digits (off : List Char) (hoff : ∀ c ∈ off, isColonOrDigit c = true) :
    ∀ c ∈ ReplaceAllEmpty off ':', isDigit c = true := by
  intro c hc
  unfold ReplaceAllEmpty at hc
  rw [List.mem_filter] at hc
  have h2 := hoff c hc.1
  unfold isColonOrDigit at h2
  have h3 := hc.2
  simp only [Bool.not_eq_true', Bool.or_eq_true] at h2 h3
  rcases h2 with h2 | h2
  · rw [h2] at h3
    cases h3
  · exact h2

theorem TrimLeft_digits (z : List Char) (hz : ∀ c ∈ z, isDigit c = true) :
    TrimLeft z "+-".toList = z := by
  unfold TrimLeft
  cases z with
  | nil => rfl
  | cons c t =>
    have hc := isDigit_ne_sign c (hz c (by simp))
    have h1 : ¬ c = '+' := fun h => hc (Or.inr h)
    have h2 : ¬ c = '-' := fun h => hc (Or.inl h)
    simp [List.dropWhile, h1, h2]

theorem offsetHMS_digits (off : List Char) (h m s : Int)
    (hoff : ∀ c ∈ off, isColonOrDigit c = true) (hn : offsetHMS off = some (h, m, s)) :
    0 ≤ h ∧ 0 ≤ m ∧ 0 ≤ s := by
  unfold offsetHMS at hn
  simp only [Option.bind_eq_bind, Option.pure_def, Option.bind_eq_some, Option.some.injEq,
    Prod.mk.injEq] at hn
  obtain ⟨pad, hpad, x, hx, y, hy, z, hz, rfl, rfl, rfl⟩ := hn
  have hzone := zone_digits off hoff
  have hpd : ∀ c ∈ pad, isDigit c = true := by
    unfold Repeat at hpad
    split at hpad
    · cases hpad
    · cases hpad
      intro c hc
      simp only [List.mem_flatten, List.mem_replicate] at hc
      obtain ⟨l, ⟨_, rfl⟩, hc⟩ := hc
      have : c = '0' := by simpa using hc
      subst this
      decide
  have hall : ∀ c ∈ TrimLeft (ReplaceAllEmpty off ':') "+-".toList ++ pad,
      isDigit c = true := by
    intro c hc
    rcases List.mem_append.mp hc with h | h
    · exact hzone c h
    · exact hpd c h
  have hsl : ∀ (lo hi : Nat) (w : List Char),
      slice (TrimLeft (ReplaceAllEmpty off ':') "+-".toList ++ pad) lo hi = some w →
      ∀ c ∈ w, isDigit c = true := by
    intro lo hi w hw c hc
    unfold slice at hw
    split at hw
    · cases hw
      exact hall c (List.mem_of_mem_drop (List.mem_of_mem_take hc))
    · cases hw
  rw [Atoi_digits x (hsl _ _ _ hx), Atoi_digits y (hsl _ _ _ hy), Atoi_digits z (hsl _ _ _ hz)]
  exact ⟨Int.natCast_nonneg _, Int.natCast_nonneg _, Int.natCast_nonneg _⟩

theorem offsetHMS_effective (mk off : List Char) :
    offsetHMS (effectiveOffset mk off) = offsetHMS off := by
  unfold effectiveOffset
  split
  · rename_i h
    rw [h.2]
    decide
  · rfl

/-- The offset normalization panics exactly when the offset, stripped of colons
and leading signs, is longer than 6 characters. -/
theorem offsetHMS_eq_none_iff (off : List Char) :
    offsetHMS off = none ↔ 6 < (TrimLeft (ReplaceAllEmpty off ':') "+-".toList).length := by
  unfold offsetHMS
  simp only []
  generalize TrimLeft (ReplaceAllEmpty off ':') "+-".toList = zone
  by_cases h : 6 < zone.length
  · have : Repeat ['0'] (6 - (zone.length : Int)) = none := by
      unfold Repeat
      rw [if_pos (by omega)]
    simp [this, h]
  · have hr : Repeat ['0'] (6 - (zone.length : Int)) =
        some (List.replicate (6 - zone.length) '0') := by
      unfold Repeat
      rw [if_neg (by omega)]
      have : (6 - (zone.length : Int)).toNat = 6 - zone.length := by omega
      rw [this]
      simp
    have hl : (zone ++ List.replicate (6 - zone.length) '0').length = 6 := by
      simp
      omega
    simp [hr, slice, hl, h]
    omega

/-- `StrToTime` panics exactly when the grammar matches and the offset group,
stripped of its colons, holds more than 6 digits. -/
theorem StrToTime_eq_panic_iff (str : List Char) (nowYear localOffset : Int) :
    StrToTime str nowYear localOffset = Outcome.panic ↔
      ∃ m0 d t f mk sg off, FindStringSubmatch str = [m0, d, t, f, mk, sg, off] ∧
        6 < (ReplaceAllEmpty off ':').length := by
  constructor
  · intro hp
    rcases FindStringSubmatch_shape str with h0 | ⟨_, _, _, _, d, t, f, mk, sg, off, _, hm, hs, _⟩
    · unfold StrToTime at hp
      simp [h0] at hp
    · refine ⟨_, d, t, f, mk, sg, off, hm, ?_⟩
      rw [StrToTime_of_match _ _ _ _ _ _ _ _ _ _ hm] at hp
      unfold fromGroups at hp
      simp only [offsetHMS_effective] at hp
      split at hp
      · split at hp
        · rename_i hnone
          rw [offsetHMS_eq_none_iff,
            TrimLeft_digits _ (ReplaceAllEmpty_digits off hs.offset)] at hnone
          exact hnone
        · cases hp
      · cases hp
  · rintro ⟨m0, d, t, f, mk, sg, off, hm, hlen⟩
    have hs := shapes_of_match _ _ _ _ _ _ _ _ hm
    have hnone : offsetHMS off = none := by
      rw [offsetHMS_eq_none_iff, TrimLeft_digits _ (ReplaceAllEmpty_digits off hs.offset)]
      exact hlen
    have hne : off ≠ [] := by
      rintro rfl
      simp [ReplaceAllEmpty] at hlen
    have heff : effectiveOffset mk off = off := by
      unfold effectiveOffset
      simp [hne]
    rw [StrToTime_of_match _ _ _ _ _ _ _ _ _ _ hm]
    unfold fromGroups
    simp only [heff, hnone, hne, ne_eq, not_false_eq_true, if_true]

theorem marker_only_result (d t f mk sg : List Char) (nowYear localOffset : Int)
    (hmk : mk ≠ []) :
    fromGroups d t f mk sg [] nowYear localOffset =
      fromGroups d t f mk sg "000000".toList nowYear localOffset ∧
    fromGroups d t f mk sg [] nowYear localOffset =
      Outcome.ok ⟨(dateFields d nowYear).1, (dateFields d nowYear).2.1,
        (dateFields d nowYear).2.2, (timeFields t).1, (timeFields t).2.1, (timeFields t).2.2,
        nsecField f, if localOffset = 0 then Location.Local else Location.UTC⟩ := by
  have e1 : effectiveOffset mk [] = "000000".toList := by
    unfold effectiveOffset
    simp [hmk]
  have e2 : effectiveOffset mk "000000".toList = "000000".toList := by
    unfold effectiveOffset
    simp
  have e3 : offsetHMS "000000".toList = some (0, 0, 0) := by decide
  have e4 : "000000".toList ≠ [] := by decide
  constructor
  · unfold fromGroups
    simp only [e1, e2]
  · unfold fromGroups
    simp only [e1, e3, e4, ne_eq, not_false_eq_true, if_true]
    unfold zoneShift
    by_cases hl : localOffset = 0
    · subst hl
      simp
    · have hl' : ¬ (0 : Int) = localOffset := fun h => hl h.symm
      simp only [hl, if_false]
      simp [hl']

/-! ## The claims about `StrToTime` -/

/-- C1: `StrToTime` returns the error `unsupported time format` exactly when
the input contains no substring of the shape of a date (2 to 4 digits, `-` or
`/`, 2 digits, `-` or `/`, 2 digits); in particular a string without any digit
is rejected. -/
theorem StrToTime_unsupported_iff (str : List Char) (nowYear localOffset : Int) :
    (StrToTime str nowYear localOffset = Outcome.unsupported ↔ ¬ ContainsDate str) ∧
    ((∀ c ∈ str, isDigit c = false) →
      StrToTime str nowYear localOffset = Outcome.unsupported) := by
  have hiff : StrToTime str nowYear localOffset = Outcome.unsupported ↔ ¬ ContainsDate str := by
    rw [unsupported_iff_search_none, ← search_pattern_isSome_iff]
    cases search TIME_REAGEX_PATTERN str <;> simp
  refine ⟨hiff, fun hno => hiff.mpr ?_⟩
  rintro ⟨pre, d, post, rfl, y, mo, da, c1, c2, rfl, hy2, _, _, _, hy, _⟩
  cases y with
  | nil => simp at hy2
  | cons c t =>
    have h1 := hy c (by simp)
    have h2 := hno c (by simp)
    rw [h1] at h2
    cases h2

theorem StrToTime_unsupported_iff_witness :
    (∀ c ∈ "hello".toList, isDigit c = false) ∧
      StrToTime "hello".toList 2018 28800 = Outcome.unsupported :=
  ⟨by decide, (StrToTime_unsupported_iff "hello".toList 2018 28800).2 (by decide)⟩

/-- C2 (failing input): on `2018-02-09 20:46:17 +08000000` the offset group
holds eight digits, `strings.Repeat("0", 6 - 8)` is called with a negative
count, and `StrToTime` panics, whatever the reference year and local offset. -/
theorem StrToTime_panics_long_offset (nowYear localOffset : Int) :
    StrToTime "2018-02-09 20:46:17 +08000000".toList nowYear localOffset = Outcome.panic := by
  have hm : FindStringSubmatch "2018-02-09 20:46:17 +08000000".toList =
      ["2018-02-09 20:46:17 +08000000".toList, "2018-02-09".toList, "20:46:17".toList, [],
        " ".toList, "+".toList, "08000000".toList] := by decide
  have hp : offsetHMS (effectiveOffset " ".toList "08000000".toList) = none := by decide
  rw [StrToTime_of_match _ _ _ _ _ _ _ _ _ _ hm]
  unfold fromGroups
  simp only [hp]
  split
  · rfl
  · rename_i h
    exact absurd (by decide) h

/-- C3: for every date-time with year in 100..9999, month 1..12, a valid day,
hour 0..23, minute 0..59 and second 0..59, every reference year and every
local offset, `StrToTime` applied to the string that `Datetime` produces
succeeds and hands exactly those fields, nanosecond 0 and the local zone to
the builder. -/
theorem StrToTime_Datetime (year month day hour min sec : Nat) (nowYear localOffset : Int)
    (hy : 100 ≤ year ∧ year ≤ 9999) (hmo : 1 ≤ month ∧ month ≤ 12)
    (hd : 1 ≤ day ∧ day ≤ daysIn year month) (hh : hour ≤ 23) (hmi : min ≤ 59)
    (hs : sec ≤ 59) :
    StrToTime (Datetime year month day hour min sec) nowYear localOffset =
      Outcome.ok ⟨year, month, day, hour, min, sec, 0, Location.Local⟩ := by
  have hday : day < 100 := by
    have : daysIn year month ≤ 31 := by
      unfold daysIn
      split_ifs <;> omega
    omega
  unfold Datetime
  rw [appendInt_four year hy.1 (by omega), appendInt_two month (by omega),
    appendInt_two day hday, appendInt_two hour (by omega), appendInt_two min (by omega),
    appendInt_two sec (by omega)]
  unfold StrToTime
  simp only [List.cons_append, List.nil_append, find_datetime]
  have hyv : ((((year / 1000 % 10 * 10 + year / 100 % 10) * 10 + year / 10 % 10) * 10 +
      year % 10 : Nat) : Int) = (year : Int) := by
    have : ((year / 1000 % 10 * 10 + year / 100 % 10) * 10 + year / 10 % 10) * 10 +
      year % 10 = year := by omega
    rw [this]
  have h2 : ∀ n : Nat, n < 100 → ((n / 10 % 10 * 10 + n % 10 : Nat) : Int) = (n : Int) := by
    intro n hn
    have : n / 10 % 10 * 10 + n % 10 = n := by omega
    rw [this]
  have e1 : ¬ ((year : Int) < 100) := by omega
  simp [fromGroups, dateFields, dateArray, timeFields, nsecField, effectiveOffset, Split, Atoi_dig2,
    Atoi_dig4, hyv, h2 month (by omega), h2 day hday, h2 hour (by omega), h2 min (by omega),
    h2 sec (by omega), e1, dig_ne_minus, dig_ne_colon]

theorem StrToTime_Datetime_witness :
    Datetime 2018 2 9 20 46 17 = "2018-02-09 20:46:17".toList ∧
    StrToTime (Datetime 2018 2 9 20 46 17) 2018 28800 =
      Outcome.ok ⟨2018, 2, 9, 20, 46, 17, 0, Location.Local⟩ :=
  ⟨by decide,
    StrToTime_Datetime 2018 2 9 20 46 17 2018 28800 (by decide) (by decide) (by decide)
      (by decide) (by decide) (by decide)⟩

/-- C4 (counterexample): `2014-01-17T01:19:15+08:00` has an empty zone marker
(group 4) and the time group `01:19:15`, yet under local offset 0 the result
is tagged UTC with the hour shifted from 1 to -7; it is not the local,
unshifted result the claim states. -/
theorem StrToTime_no_marker_counterexample :
    (FindStringSubmatch "2014-01-17T01:19:15+08:00".toList).getD 4 [] = [] ∧
    timeFields ((FindStringSubmatch "2014-01-17T01:19:15+08:00".toList).getD 2 []) =
      (1, 19, 15) ∧
    StrToTime "2014-01-17T01:19:15+08:00".toList 2018 0 =
      Outcome.ok ⟨2014, 1, 17, -7, 19, 15, 0, Location.UTC⟩ ∧
    StrToTime "2014-01-17T01:19:15+08:00".toList 2018 0 ≠
      Outcome.ok ⟨2014, 1, 17, 1, 19, 15, 0, Location.Local⟩ := by
  decide

/-- C4 (amended): if the match carries neither a zone marker (group 4 empty)
nor offset digits (group 6 empty), `StrToTime` keeps the local zone and passes
the hour, minute and second of the time group unshifted, for every local
offset. -/
theorem StrToTime_no_marker_no_offset (str m0 d t f sg : List Char) (nowYear localOffset : Int)
    (hmatch : FindStringSubmatch str = [m0, d, t, f, [], sg, []]) :
    StrToTime str nowYear localOffset =
      Outcome.ok ⟨(dateFields d nowYear).1, (dateFields d nowYear).2.1,
        (dateFields d nowYear).2.2, (timeFields t).1, (timeFields t).2.1, (timeFields t).2.2,
        nsecField f, Location.Local⟩ := by
  rw [StrToTime_of_match _ _ _ _ _ _ _ _ _ _ hmatch]
  simp [fromGroups, effectiveOffset]

theorem StrToTime_no_marker_no_offset_witness :
    FindStringSubmatch "2018-02-09 20:46:17".toList =
      ["2018-02-09 20:46:17".toList, "2018-02-09".toList, "20:46:17".toList, [], [], [], []] ∧
    StrToTime "2018-02-09 20:46:17".toList 2018 28800 =
      Outcome.ok ⟨2018, 2, 9, 20, 46, 17, 0, Location.Local⟩ :=
  ⟨by decide,
    (StrToTime_no_marker_no_offset "2018-02-09 20:46:17".toList "2018-02-09 20:46:17".toList
      "2018-02-09".toList "20:46:17".toList [] [] 2018 28800 (by decide)).trans (by decide)⟩

/-- C5: when the offset group normalizes to `(h, m, s)` and
`h*3600 + m*60 + s` equals the local offset, `StrToTime` passes the hour,
minute and second of the time group to the builder unshifted and the zone is
the local zone. -/
theorem StrToTime_offset_eq_local (str m0 d t f mk sg off : List Char)
    (nowYear localOffset h m s : Int)
    (hmatch : FindStringSubmatch str = [m0, d, t, f, mk, sg, off])
    (hnorm : offsetHMS off = some (h, m, s))
    (heq : h * 3600 + m * 60 + s = localOffset) :
    StrToTime str nowYear localOffset =
      Outcome.ok ⟨(dateFields d nowYear).1, (dateFields d nowYear).2.1,
        (dateFields d nowYear).2.2, (timeFields t).1, (timeFields t).2.1, (timeFields t).2.2,
        nsecField f, Location.Local⟩ := by
  rw [StrToTime_of_match _ _ _ _ _ _ _ _ _ _ hmatch]
  unfold fromGroups
  simp only [offsetHMS_effective, hnorm, zoneShift, heq, ne_eq, not_true_eq_false, if_false]
  split <;> rfl

theorem StrToTime_offset_eq_local_witness :
    FindStringSubmatch "2014-01-17T01:19:15+08:00".toList =
      ["2014-01-17T01:19:15+08:00".toList, "2014-01-17".toList, "01:19:15".toList, [], [],
        "+".toList, "08:00".toList] ∧
    offsetHMS "08:00".toList = some (8, 0, 0) ∧
    StrToTime "2014-01-17T01:19:15+08:00".toList 2018 28800 =
      Outcome.ok ⟨2014, 1, 17, 1, 19, 15, 0, Location.Local⟩ :=
  ⟨by decide, by decide,
    (StrToTime_offset_eq_local "2014-01-17T01:19:15+08:00".toList
      "2014-01-17T01:19:15+08:00".toList "2014-01-17".toList "01:19:15".toList [] []
      "+".toList "08:00".toList 2018 28800 8 0 0 (by decide) (by decide)
      (by decide)).trans (by decide)⟩

/-- C6: when the match carries an offset (offset digits, or a zone marker
standing for offset zero) that normalizes to `(h, m, s)` with
`h*3600 + m*60 + s` different from the local offset, the zone is UTC and the
builder receives `(hour - h, min - m, sec - s)` for sign `+` and
`(hour + h, min + m, sec + s)` for any other sign group (`-` or empty); year,
month, day and nanosecond are the unshifted ones. -/
theorem StrToTime_offset_ne_local (str m0 d t f mk sg off : List Char)
    (nowYear localOffset h m s : Int)
    (hmatch : FindStringSubmatch str = [m0, d, t, f, mk, sg, off])
    (hpresent : mk ≠ [] ∨ off ≠ [])
    (hnorm : offsetHMS off = some (h, m, s))
    (hne : h * 3600 + m * 60 + s ≠ localOffset) :
    StrToTime str nowYear localOffset =
      Outcome.ok ⟨(dateFields d nowYear).1, (dateFields d nowYear).2.1,
        (dateFields d nowYear).2.2,
        if sg = ['+'] then (timeFields t).1 - h else (timeFields t).1 + h,
        if sg = ['+'] then (timeFields t).2.1 - m else (timeFields t).2.1 + m,
        if sg = ['+'] then (timeFields t).2.2 - s else (timeFields t).2.2 + s,
        nsecField f, Location.UTC⟩ := by
  have hsh := shapes_of_match _ _ _ _ _ _ _ _ hmatch
  obtain ⟨h0, m0', s0⟩ := offsetHMS_digits off h m s hsh.offset hnorm
  have heff : effectiveOffset mk off ≠ [] := by
    unfold effectiveOffset
    split
    · decide
    · rename_i hc
      rcases hpresent with hp | hp
      · intro ho
        exact hc ⟨hp, ho⟩
      · exact hp
  rw [StrToTime_of_match _ _ _ _ _ _ _ _ _ _ hmatch]
  unfold fromGroups
  simp only [offsetHMS_effective, hnorm, heff, ne_eq, not_false_eq_true, if_true]
  have eh : ∀ x : Int, (if h > 0 then x - h else x) = x - h := by
    intro x
    split
    · rfl
    · have : h = 0 := by omega
      simp [this]
  have em : ∀ x : Int, (if m > 0 then x - m else x) = x - m := by
    intro x
    split
    · rfl
    · have : m = 0 := by omega
      simp [this]
  have es : ∀ x : Int, (if s > 0 then x - s else x) = x - s := by
    intro x
    split
    · rfl
    · have : s = 0 := by omega
      simp [this]
  have eh' : ∀ x : Int, (if h > 0 then x + h else x) = x + h := by
    intro x
    split
    · rfl
    · have : h = 0 := by omega
      simp [this]
  have em' : ∀ x : Int, (if m > 0 then x + m else x) = x + m := by
    intro x
    split
    · rfl
    · have : m = 0 := by omega
      simp [this]
  have es' : ∀ x : Int, (if s > 0 then x + s else x) = x + s := by
    intro x
    split
    · rfl
    · have : s = 0 := by omega
      simp [this]
  unfold zoneShift
  simp only [ne_eq, hne, not_false_eq_true, if_true, eh, em, es, eh', em', es']
  by_cases hplus : sg = ['+']
  · subst hplus
    simp
  · by_cases hminus : sg = ['-']
    · subst hminus
      simp
    · simp [hplus, hminus]

theorem StrToTime_offset_ne_local_witness :
    FindStringSubmatch "2006-01-02T15:04:05Z07:00".toList =
      ["2006-01-02T15:04:05Z07:00".toList, "2006-01-02".toList, "15:04:05".toList, [],
        "Z".toList, [], "07:00".toList] ∧
    offsetHMS "07:00".toList = some (7, 0, 0) ∧
    StrToTime "2006-01-02T15:04:05Z07:00".toList 2018 28800 =
      Outcome.ok ⟨2006, 1, 2, 22, 4, 5, 0, Location.UTC⟩ :=
  ⟨by decide, by decide,
    (StrToTime_offset_ne_local "2006-01-02T15:04:05Z07:00".toList
      "2006-01-02T15:04:05Z07:00".toList "2006-01-02".toList "15:04:05".toList []
      "Z".toList [] "07:00".toList 2018 28800 7 0 0 (by decide) (by decide) (by decide)
      (by decide)).trans (by decide)⟩

/-- C7: a zone marker without offset digits is treated as offset `000000`.
For every match with a marker and an empty offset group the result is the one
for offset group `000000`: tagged UTC with the hour, minute and second of the
time group unchanged when the local offset is not 0, in the local zone with
the same fields when it is 0. Every input `YYYY-MM-DDTHH:MM:SS[.fraction]Z`
(fraction of at most 9 digits) is such an input: it yields the written hour,
minute and second, the padded fraction, and that zone. -/
theorem StrToTime_marker_only (nowYear localOffset : Int) :
    (∀ str m0 d t f mk sg : List Char,
      FindStringSubmatch str = [m0, d, t, f, mk, sg, []] → mk ≠ [] →
      StrToTime str nowYear localOffset =
        fromGroups d t f mk sg "000000".toList nowYear localOffset ∧
      StrToTime str nowYear localOffset =
        Outcome.ok ⟨(dateFields d nowYear).1, (dateFields d nowYear).2.1,
          (dateFields d nowYear).2.2, (timeFields t).1, (timeFields t).2.1,
          (timeFields t).2.2, nsecField f,
          if localOffset = 0 then Location.Local else Location.UTC⟩) ∧
    (∀ (a b c d e f g h i j k l m n : Nat) (fr : List Nat), fr.length ≤ 9 →
      StrToTime ([dig a, dig b, dig c, dig d, '-', dig e, dig f, '-', dig g, dig h, 'T',
          dig i, dig j, ':', dig k, dig l, ':', dig m, dig n] ++
          ((if fr = [] then [] else '.' :: fr.map dig) ++ ['Z'])) nowYear localOffset =
        Outcome.ok ⟨
          (dateFields [dig a, dig b, dig c, dig d, '-', dig e, dig f, '-', dig g, dig h]
            nowYear).1,
          ((e % 10 * 10 + f % 10 : Nat) : Int), ((g % 10 * 10 + h % 10 : Nat) : Int),
          ((i % 10 * 10 + j % 10 : Nat) : Int), ((k % 10 * 10 + l % 10 : Nat) : Int),
          ((m % 10 * 10 + n % 10 : Nat) : Int), nsecField (fr.map dig),
          if localOffset = 0 then Location.Local else Location.UTC⟩) := by
  constructor
  · intro str m0 d t f mk sg hmatch hmk
    rw [StrToTime_of_match _ _ _ _ _ _ _ _ _ _ hmatch]
    exact marker_only_result d t f mk sg nowYear localOffset hmk
  · intro a b c d e f g h i j k l m n fr hfr
    rw [StrToTime_of_match _ _ _ _ _ _ _ _ _ _ (find_utc_marker a b c d e f g h i j k l m n fr hfr),
      (marker_only_result _ _ _ _ _ _ _ (by simp)).2]
    simp [dateFields, dateArray, timeFields, Split, Atoi_dig2, dig_ne_minus, dig_ne_colon]

theorem StrToTime_marker_only_witness :
    FindStringSubmatch "2018-02-09T20:46:17Z".toList =
      ["2018-02-09T20:46:17Z".toList, "2018-02-09".toList, "20:46:17".toList, [],
        "Z".toList, [], []] ∧
    StrToTime "2018-02-09T20:46:17Z".toList 2018 28800 =
      Outcome.ok ⟨2018, 2, 9, 20, 46, 17, 0, Location.UTC⟩ ∧
    StrToTime "2018-02-09T20:46:17Z".toList 2018 0 =
      Outcome.ok ⟨2018, 2, 9, 20, 46, 17, 0, Location.Local⟩ ∧
    StrToTime "2018-02-09T20:46:17.897Z".toList 2018 28800 =
      Outcome.ok ⟨2018, 2, 9, 20, 46, 17, 897000000, Location.UTC⟩ :=
  ⟨by decide,
    (((StrToTime_marker_only 2018 28800).1 "2018-02-09T20:46:17Z".toList
      "2018-02-09T20:46:17Z".toList "2018-02-09".toList "20:46:17".toList [] "Z".toList []
      (by decide) (by decide)).2).trans (by decide),
    (((StrToTime_marker_only 2018 0).1 "2018-02-09T20:46:17Z".toList
      "2018-02-09T20:46:17Z".toList "2018-02-09".toList "20:46:17".toList [] "Z".toList []
      (by decide) (by decide)).2).trans (by decide),
    ((StrToTime_marker_only 2018 28800).2 2 0 1 8 0 2 0 9 2 0 4 6 1 7 [8, 9, 7]
      (by decide)).trans (by decide)⟩

/-- C8: whenever the code parses a year `y` from the date group (the group
splits into at least three parts and the first part converts to `y`), the year
handed to the builder is `(R / 100) * 100 + y` (truncated division) if
`y < 100` and `y` itself otherwise; in particular this holds, with `y` the
decimal value of the leading digits, for every date written with the same
separator twice. -/
theorem StrToTime_year_expansion (str m0 d t f mk sg off : List Char)
    (nowYear localOffset : Int) (tm : Time)
    (hmatch : FindStringSubmatch str = [m0, d, t, f, mk, sg, off])
    (hok : StrToTime str nowYear localOffset = Outcome.ok tm) :
    (∀ y : Int, 3 ≤ (dateArray d).length → Atoi ((dateArray d).getD 0 []) = y →
      tm.year = if y < 100 then Int.tdiv nowYear 100 * 100 + y else y) ∧
    (∀ (ys mo da : List Char) (c : Char) (y : Nat), d = ys ++ c :: (mo ++ c :: da) →
      (∀ x ∈ ys, isDigit x = true) → (∀ x ∈ mo, isDigit x = true) →
      (∀ x ∈ da, isDigit x = true) → decimalValue ys = y →
      tm.year = if y < 100 then Int.tdiv nowYear 100 * 100 + (y : Int) else (y : Int)) := by
  rw [StrToTime_of_match _ _ _ _ _ _ _ _ _ _ hmatch] at hok
  have hyear := (fromGroups_ok _ _ _ _ _ _ _ _ _ hok).1
  have key : ∀ y : Int, 3 ≤ (dateArray d).length → Atoi ((dateArray d).getD 0 []) = y →
      tm.year = if y < 100 then Int.tdiv nowYear 100 * 100 + y else y := by
    intro y h3 hy
    rw [hyear]
    unfold dateFields
    simp only [ge_iff_le, h3, if_true, hy]
  refine ⟨key, ?_⟩
  intro ys mo da c y hd hys hmo hda hval
  have hsep : isDateSep c = true := by
    obtain ⟨ys', mo', da', c1, c2, hd', hl2, _, hml, hdl, hy', hm', hda', hc1, hc2⟩ :=
      (shapes_of_match _ _ _ _ _ _ _ _ hmatch).date
    rw [hd] at hd'
    by_contra hns
    have hcd : isDigit c = true ∨ isDateSep c = true := by
      have hmem : c ∈ ys' ++ c1 :: (mo' ++ c2 :: da') := by
        rw [← hd']
        simp
      simp only [List.mem_append, List.mem_cons] at hmem
      rcases hmem with h | rfl | h | rfl | h
      · exact Or.inl (hy' _ h)
      · exact Or.inr hc1
      · exact Or.inl (hm' _ h)
      · exact Or.inr hc2
      · exact Or.inl (hda' _ h)
    rcases hcd with hcd | hcd
    · have hall : ∀ x ∈ ys ++ c :: (mo ++ c :: da), isDigit x = true := by
        intro x hx
        simp only [List.mem_append, List.mem_cons] at hx
        rcases hx with h | rfl | h | rfl | h
        · exact hys _ h
        · exact hcd
        · exact hmo _ h
        · exact hcd
        · exact hda _ h
      have : isDigit c1 = true := hall c1 (by rw [hd']; simp)
      have h2 := isDigit_ne_seps c1 this
      unfold isDateSep at hc1
      simp only [Bool.or_eq_true, beq_iff_eq] at hc1
      rcases hc1 with h | h
      · exact h2.1 h
      · exact h2.2 h
    · exact hns hcd
  have harr := dateArray_same_sep ys mo da c hsep hys hmo hda
  rw [← hd] at harr
  have := key (y : Int) (by rw [harr]; simp) (by rw [harr]; simp [Atoi_digits ys hys, hval])
  simpa using this

theorem StrToTime_year_expansion_witness :
    FindStringSubmatch "99-12-14".toList =
      ["99-12-14".toList, "99-12-14".toList, [], [], [], [], []] ∧
    StrToTime "99-12-14".toList 2018 28800 =
      Outcome.ok ⟨2099, 12, 14, 0, 0, 0, 0, Location.Local⟩ ∧
    (2099 : Int) = if (99 : Int) < 100 then Int.tdiv 2018 100 * 100 + 99 else 99 :=
  ⟨by decide, by decide,
    (StrToTime_year_expansion "99-12-14".toList "99-12-14".toList "99-12-14".toList [] [] [] []
      [] 2018 28800 ⟨2099, 12, 14, 0, 0, 0, 0, Location.Local⟩ (by decide) (by decide)).1 99
      (by decide) (by decide)⟩

/-- C9: when the fraction group is a string of `k` digits, `k ≥ 1` (the
grammar allows at most 9), with decimal value `v`, the nanosecond handed to
the builder is `v * 10^(9 - k)`; when the fraction group is empty it is 0. -/
theorem StrToTime_fraction_padding (str m0 d t f mk sg off : List Char)
    (nowYear localOffset : Int) (tm : Time)
    (hmatch : FindStringSubmatch str = [m0, d, t, f, mk, sg, off])
    (hok : StrToTime str nowYear localOffset = Outcome.ok tm) :
    (∀ c ∈ f, isDigit c = true) ∧ f.length ≤ 9 ∧
    (∀ k v : Nat, f.length = k → 1 ≤ k → decimalValue f = v →
      tm.nsec = (v : Int) * 10 ^ (9 - k)) ∧
    (f = [] → tm.nsec = 0) := by
  have hsh := (shapes_of_match _ _ _ _ _ _ _ _ hmatch).frac
  rw [StrToTime_of_match _ _ _ _ _ _ _ _ _ _ hmatch] at hok
  have hn := (fromGroups_ok _ _ _ _ _ _ _ _ _ hok).2.2.2
  rw [nsecField_digits f hsh.2] at hn
  refine ⟨hsh.2, hsh.1, ?_, ?_⟩
  · intro k v hk h1 hv
    have hne : f ≠ [] := by
      intro e
      rw [e] at hk
      simp at hk
      omega
    rw [hn, if_neg hne, hk, hv]
  · intro e
    rw [hn, if_pos e]

theorem StrToTime_fraction_padding_witness :
    FindStringSubmatch "2018-02-09T20:46:17.897Z".toList =
      ["2018-02-09T20:46:17.897Z".toList, "2018-02-09".toList, "20:46:17".toList,
        "897".toList, "Z".toList, [], []] ∧
    StrToTime "2018-02-09T20:46:17.897Z".toList 2018 28800 =
      Outcome.ok ⟨2018, 2, 9, 20, 46, 17, 897000000, Location.UTC⟩ ∧
    (897000000 : Int) = ((897 : Nat) : Int) * 10 ^ (9 - 3) ∧
    StrToTime "2018-02-09 20:46:17.5".toList 2018 28800 =
      Outcome.ok ⟨2018, 2, 9, 20, 46, 17, 500000000, Location.Local⟩ ∧
    (500000000 : Int) = ((5 : Nat) : Int) * 10 ^ (9 - 1) :=
  ⟨by decide, by decide,
    (StrToTime_fraction_padding "2018-02-09T20:46:17.897Z".toList
      "2018-02-09T20:46:17.897Z".toList "2018-02-09".toList "20:46:17".toList "897".toList
      "Z".toList [] [] 2018 28800 ⟨2018, 2, 9, 20, 46, 17, 897000000, Location.UTC⟩
      (by decide) (by decide)).2.2.1 3 897 (by decide) (by decide) (by decide),
    by decide,
    (StrToTime_fraction_padding "2018-02-09 20:46:17.5".toList
      "2018-02-09 20:46:17.5".toList "2018-02-09".toList "20:46:17".toList "5".toList
      [] [] [] 2018 28800 ⟨2018, 2, 9, 20, 46, 17, 500000000, Location.Local⟩
      (by decide) (by decide)).2.2.1 1 5 (by decide) (by decide) (by decide)⟩

/-- C10: for every input `StrToTime` accepts, the nanosecond handed to the
builder lies in `[0, 1000000000)`. -/
theorem StrToTime_nsec_range (str : List Char) (nowYear localOffset : Int) (tm : Time)
    (hok : StrToTime str nowYear localOffset = Outcome.ok tm) :
    0 ≤ tm.nsec ∧ tm.nsec < 1000000000 := by
  rcases FindStringSubmatch_shape str with h0 | ⟨_, _, _, _, d, t, f, mk, sg, off, _, hm, hs, _⟩
  · unfold StrToTime at hok
    simp [h0] at hok
  · rw [StrToTime_of_match _ _ _ _ _ _ _ _ _ _ hm] at hok
    have hn := (fromGroups_ok _ _ _ _ _ _ _ _ _ hok).2.2.2
    rw [nsecField_digits f hs.frac.2] at hn
    rw [hn]
    split
    · decide
    · have hlt := decimalValue_lt f hs.frac.2
      have hlen := hs.frac.1
      have hpow : 10 ^ f.length * 10 ^ (9 - f.length) = 1000000000 := by
        rw [← pow_add]
        have : f.length + (9 - f.length) = 9 := by omega
        rw [this]
        norm_num
      constructor
      · positivity
      · have h1 : decimalValue f * 10 ^ (9 - f.length) < 10 ^ f.length * 10 ^ (9 - f.length) :=
          Nat.mul_lt_mul_of_pos_right hlt (by positivity)
        rw [hpow] at h1
        exact_mod_cast h1

theorem StrToTime_nsec_range_witness :
    StrToTime "2018-02-09T20:46:17.897Z".toList 2018 28800 =
      Outcome.ok ⟨2018, 2, 9, 20, 46, 17, 897000000, Location.UTC⟩ ∧
    (0 : Int) ≤ 897000000 ∧ (897000000 : Int) < 1000000000 :=
  ⟨by decide,
    StrToTime_nsec_range "2018-02-09T20:46:17.897Z".toList 2018 28800
      ⟨2018, 2, 9, 20, 46, 17, 897000000, Location.UTC⟩ (by decide)⟩

/-! ## Package `time`: calendar arithmetic and `time.Date` -/

theorem cycles_arith (d0 n400 q100 n100 n4 q1 n1 : Int)
    (h1 : n400 = d0 / 146097)
    (h2 : q100 = (d0 - 146097 * n400) / 36524)
    (h2' : n100 = q100 - q100 / 4)
    (h3 : n4 = (d0 - 146097 * n400 - 36524 * n100) / 1461)
    (h4 : q1 = (d0 - 146097 * n400 - 36524 * n100 - 1461 * n4) / 365)
    (h4' : n1 = q1 - q1 / 4) :
    365 * (1 + 400 * n400 + 100 * n100 + 4 * n4 + n1 - 1) +
        (1 + 400 * n400 + 100 * n100 + 4 * n4 + n1 - 1) / 4 -
        (1 + 400 * n400 + 100 * n100 + 4 * n4 + n1 - 1) / 100 +
        (1 + 400 * n400 + 100 * n100 + 4 * n4 + n1 - 1) / 400 +
        (d0 - 146097 * n400 - 36524 * n100 - 1461 * n4 - 365 * n1) = d0 ∧
    0 ≤ d0 - 146097 * n400 - 36524 * n100 - 1461 * n4 - 365 * n1 ∧
    (d0 - 146097 * n400 - 36524 * n100 - 1461 * n4 - 365 * n1 ≤ 364 ∨
      (d0 - 146097 * n400 - 36524 * n100 - 1461 * n4 - 365 * n1 = 365 ∧
        (1 + 400 * n400 + 100 * n100 + 4 * n4 + n1) % 4 = 0 ∧
        ((1 + 400 * n400 + 100 * n100 + 4 * n4 + n1) % 100 ≠ 0 ∨
          (1 + 400 * n400 + 100 * n100 + 4 * n4 + n1) % 400 = 0))) ∧
    0 ≤ n100 ∧ n100 ≤ 3 ∧ 0 ≤ n4 ∧ n4 ≤ 24 ∧ 0 ≤ n1 ∧ n1 ≤ 3 := by
  have b1 : 0 ≤ d0 - 146097 * n400 ∧ d0 - 146097 * n400 ≤ 146096 := by omega
  have b2 : 0 ≤ q100 ∧ q100 ≤ 4 ∧ 36524 * q100 ≤ d0 - 146097 * n400 ∧
      d0 - 146097 * n400 < 36524 * q100 + 36524 := by omega
  have b3 : 0 ≤ n100 ∧ n100 ≤ 3 ∧ 0 ≤ d0 - 146097 * n400 - 36524 * n100 ∧
      d0 - 146097 * n400 - 36524 * n100 ≤ 36524 ∧
      (n100 < 3 → d0 - 146097 * n400 - 36524 * n100 ≤ 36523) := by omega
  have b4 : 0 ≤ n4 ∧ n4 ≤ 24 ∧ 0 ≤ d0 - 146097 * n400 - 36524 * n100 - 1461 * n4 ∧
      d0 - 146097 * n400 - 36524 * n100 - 1461 * n4 ≤ 1460 ∧
      (n4 = 24 → n100 < 3 → d0 - 146097 * n400 - 36524 * n100 - 1461 * n4 ≤ 1459) := by omega
  have b5 : 0 ≤ q1 ∧ q1 ≤ 4 ∧ 365 * q1 ≤ d0 - 146097 * n400 - 36524 * n100 - 1461 * n4 ∧
      d0 - 146097 * n400 - 36524 * n100 - 1461 * n4 < 365 * q1 + 365 := by omega
  have b6 : 0 ≤ n1 ∧ n1 ≤ 3 ∧
      0 ≤ d0 - 146097 * n400 - 36524 * n100 - 1461 * n4 - 365 * n1 ∧
      d0 - 146097 * n400 - 36524 * n100 - 1461 * n4 - 365 * n1 ≤ 365 ∧
      (d0 - 146097 * n400 - 36524 * n100 - 1461 * n4 - 365 * n1 = 365 →
        n1 = 3 ∧ d0 - 146097 * n400 - 36524 * n100 - 1461 * n4 = 1460) := by omega
  have e1 : (1 + 400 * n400 + 100 * n100 + 4 * n4 + n1 - 1) / 4 =
      100 * n400 + 25 * n100 + n4 := by omega
  have e2 : (1 + 400 * n400 + 100 * n100 + 4 * n4 + n1 - 1) / 100 = 4 * n400 + n100 := by omega
  have e3 : (1 + 400 * n400 + 100 * n100 + 4 * n4 + n1 - 1) / 400 = n400 := by omega
  refine ⟨by omega, by omega, ?_, by omega, by omega, by omega, by omega, by omega, by omega⟩
  by_cases h365 : d0 - 146097 * n400 - 36524 * n100 - 1461 * n4 - 365 * n1 = 365
  · right
    have := b6.2.2.2.2 h365
    refine ⟨h365, by omega, ?_⟩
    by_cases h24 : n4 < 24
    · left
      omega
    · right
      have h24' : n4 = 24 := by omega
      have h3 : n100 = 3 := by
        by_contra hn
        have := b4.2.2.2.2 h24' (by omega)
        omega
      omega
  · left
    omega

theorem yearOfDays_spec (days : Int) :
    daysBeforeYear (yearOfDays days).1 + (yearOfDays days).2 = days ∧
    0 ≤ (yearOfDays days).2 ∧
    (yearOfDays days).2 ≤ 364 + (if isLeap (yearOfDays days).1 = true then 1 else 0) := by
  obtain ⟨c1, c2, c3, c4, c5, c6, c7, c8, c9⟩ := cycles_arith (days + 719162) _ _ _ _ _ _
    rfl rfl rfl rfl rfl rfl
  unfold yearOfDays daysBeforeYear
  simp only []
  refine ⟨by omega, by omega, ?_⟩
  rcases c3 with c3 | ⟨c3, c3a, c3b⟩
  · split <;> omega
  · rw [if_pos]
    · omega
    · unfold isLeap
      simp only [Bool.and_eq_true, beq_iff_eq, Bool.or_eq_true, bne_iff_ne, ne_eq]
      exact ⟨c3a, c3b⟩

set_option maxRecDepth 100000 in
theorem monthOfYday_table :
    ∀ (leap : Bool) (n : Fin 366), (n.val : Int) ≤ 364 + (if leap = true then 1 else 0) →
      1 ≤ (monthOfYday leap n.val).1 ∧ (monthOfYday leap n.val).1 ≤ 12 ∧
      1 ≤ (monthOfYday leap n.val).2 ∧ (monthOfYday leap n.val).2 ≤ 31 ∧
      daysBefore ((monthOfYday leap n.val).1 - 1) +
        (if leap = true ∧ (monthOfYday leap n.val).1 ≥ 3 then 1 else 0) +
        ((monthOfYday leap n.val).2 - 1) = n.val := by
  decide

theorem monthOfYday_spec (leap : Bool) (yday : Int) (h0 : 0 ≤ yday)
    (h1 : yday ≤ 364 + (if leap = true then 1 else 0)) :
    1 ≤ (monthOfYday leap yday).1 ∧ (monthOfYday leap yday).1 ≤ 12 ∧
    1 ≤ (monthOfYday leap yday).2 ∧ (monthOfYday leap yday).2 ≤ 31 ∧
    daysBefore ((monthOfYday leap yday).1 - 1) +
      (if leap = true ∧ (monthOfYday leap yday).1 ≥ 3 then 1 else 0) +
      ((monthOfYday leap yday).2 - 1) = yday := by
  have hlt : yday.toNat < 366 := by
    have : yday ≤ 365 := by
      split at h1 <;> omega
    omega
  have hv : ((⟨yday.toNat, hlt⟩ : Fin 366).val : Int) = yday := by
    simp only []
    omega
  have := monthOfYday_table leap ⟨yday.toNat, hlt⟩
  rw [hv] at this
  exact this h1

theorem norm_eq (hi lo base : Int) (hb : 0 < base) :
    norm hi lo base = (hi + lo / base, lo % base) := by
  have key : ∀ q r : Int, r + base * q = lo → 0 ≤ r → r < base → lo / base = q ∧ lo % base = r :=
    fun q r h1 h2 h3 => (Int.ediv_emod_unique hb).mpr ⟨h1, h2, h3⟩
  unfold norm
  by_cases hneg : lo < 0
  · have hk : Int.tdiv (-lo - 1) base = (-lo - 1) / base :=
      Int.tdiv_eq_ediv (by omega) (by omega)
    have hm := Int.emod_add_ediv (-lo - 1) base
    have hm0 := Int.emod_nonneg (-lo - 1) (ne_of_gt hb)
    have hm1 := Int.emod_lt_of_pos (-lo - 1) hb
    simp only [hneg, if_true, hk]
    generalize (-lo - 1) / base = k at hm ⊢
    generalize (-lo - 1) % base = r at hm hm0 hm1
    have hr : lo + (k + 1) * base = base - 1 - r := by
      have : (k + 1) * base = base * k + base := by ring
      rw [this]
      omega
    obtain ⟨e1, e2⟩ := key (-(k + 1)) (base - 1 - r) (by rw [← hr]; ring) (by omega) (by omega)
    rw [if_neg (by rw [hr]; omega), e1, e2, hr]
    congr 1
  · have hk : Int.tdiv lo base = lo / base := Int.tdiv_eq_ediv (by omega) (by omega)
    have hm := Int.emod_add_ediv lo base
    have hm0 := Int.emod_nonneg lo (ne_of_gt hb)
    have hm1 := Int.emod_lt_of_pos lo hb
    simp only [hneg, if_false, hk]
    by_cases hge : lo ≥ base
    · rw [if_pos hge]
      congr 1
      have : lo / base * base = base * (lo / base) := by ring
      rw [this]
      omega
    · rw [if_neg hge]
      have h0 : 0 ≤ lo := by omega
      have hlt : lo < base := by omega
      rw [Int.ediv_eq_zero_of_lt h0 hlt, Int.emod_eq_of_lt h0 hlt]
      simp

theorem daysFromCivil_civilFromDays (days : Int) :
    daysFromCivil (civilFromDays days).1 (civilFromDays days).2.1 (civilFromDays days).2.2 =
      days ∧
    1 ≤ (civilFromDays days).2.1 ∧ (civilFromDays days).2.1 ≤ 12 ∧
    1 ≤ (civilFromDays days).2.2 ∧ (civilFromDays days).2.2 ≤ 31 := by
  obtain ⟨y1, y2, y3⟩ := yearOfDays_spec days
  obtain ⟨m1, m2, m3, m4, m5⟩ :=
    monthOfYday_spec (isLeap (yearOfDays days).1) (yearOfDays days).2 y2 y3
  unfold civilFromDays daysFromCivil
  simp only []
  refine ⟨?_, m1, m2, m3, m4⟩
  omega

theorem lookup_FixedZone (o sec : Int) : (FixedZone o).lookup sec = (o, alpha, omega) := rfl

theorem dateOffset_FixedZone (o unix : Int) : dateOffset (FixedZone o) unix = o := by
  unfold dateOffset
  simp only [lookup_FixedZone]
  split
  · split <;> rfl
  · rfl

/-- The start of the period a lookup reports is the given start or the instant
of a transition of the table. -/
theorem lookupFrom_start (sec : Int) :
    ∀ (tx : List (Int × Int)) (o s : Int),
      (lookupFrom sec o s tx).2.1 = s ∨ ∃ p ∈ tx, (lookupFrom sec o s tx).2.1 = p.1 := by
  intro tx
  induction tx with
  | nil => intro o s; exact Or.inl rfl
  | cons p rest ih =>
    intro o s
    obtain ⟨w, o2⟩ := p
    unfold lookupFrom
    split
    · exact Or.inl rfl
    · rcases ih o2 w with h | ⟨q, hq, h⟩
      · exact Or.inr ⟨(w, o2), List.mem_cons_self _ _, h⟩
      · exact Or.inr ⟨q, List.mem_cons_of_mem _ hq, h⟩

/-- In a sorted table every instant of the period a lookup reports is looked up
to the same period. -/
theorem lookupFrom_period (sec u : Int) :
    ∀ (tx : List (Int × Int)) (o s : Int), tx.Pairwise (fun a b => a.1 < b.1) →
      (lookupFrom sec o s tx).2.1 ≤ u → u < (lookupFrom sec o s tx).2.2 →
      lookupFrom u o s tx = lookupFrom sec o s tx := by
  intro tx
  induction tx with
  | nil => intro o s _ _ _; rfl
  | cons p rest ih =>
    intro o s hs h1 h2
    obtain ⟨w, o2⟩ := p
    rw [List.pairwise_cons] at hs
    unfold lookupFrom at h1 h2 ⊢
    by_cases hsec : sec < w
    · simp only [hsec, if_true] at h1 h2 ⊢
      rw [if_pos h2]
    · simp only [hsec, if_false] at h1 h2 ⊢
      have hw : w ≤ (lookupFrom sec o2 w rest).2.1 := by
        rcases lookupFrom_start sec rest o2 w with h | ⟨q, hq, h⟩
        · rw [h]
        · rw [h]
          exact le_of_lt (hs.1 q hq)
      rw [if_neg (by omega)]
      exact ih o2 w hs.2 h1 h2

/-- When the wall clock read as UTC, less the offset in force there, lies in the
period of that offset, `time.Date` subtracts that offset, and the offset is in
force at the instant built. -/
theorem dateOffset_period (loc : Zone) (unix : Int)
    (hs : loc.tx.Pairwise (fun a b => a.1 < b.1))
    (h1 : (loc.lookup unix).2.1 ≤ unix - (loc.lookup unix).1)
    (h2 : unix - (loc.lookup unix).1 < (loc.lookup unix).2.2) :
    dateOffset loc unix = (loc.lookup unix).1 ∧
    (loc.lookup (unix - (loc.lookup unix).1)).1 = (loc.lookup unix).1 := by
  constructor
  · unfold dateOffset
    simp only []
    split
    · rw [if_neg (by omega)]
    · rfl
  · unfold Zone.lookup at h1 h2 ⊢
    rw [lookupFrom_period unix _ loc.tx loc.first alpha hs h1 h2]

/-- The instant `time.Date` builds, as one linear expression: the day count of
the (month-normalized) date, plus the hours, minutes, seconds and whole
seconds of the nanoseconds, minus the zone offset found for that wall clock. -/
theorem Date_unix (year month day hour min sec nsec : Int) (loc : Zone) :
    (Date year month day hour min sec nsec loc).unix =
      daysFromCivil (year + (month - 1) / 12) ((month - 1) % 12 + 1) day * 86400 +
        hour * 3600 + min * 60 + sec + nsec / 1000000000 -
      dateOffset loc
        (daysFromCivil (year + (month - 1) / 12) ((month - 1) % 12 + 1) day * 86400 +
          hour * 3600 + min * 60 + sec + nsec / 1000000000) ∧
    (Date year month day hour min sec nsec loc).nsec = nsec % 1000000000 ∧
    (Date year month day hour min sec nsec loc).loc = loc := by
  have hW : daysFromCivil (year + (month - 1) / 12) ((month - 1) % 12 + 1)
        (day + (hour + (min + (sec + nsec / 1000000000) / 60) / 60) / 24) * 86400 +
      ((hour + (min + (sec + nsec / 1000000000) / 60) / 60) % 24 * 3600 +
        (min + (sec + nsec / 1000000000) / 60) % 60 * 60 +
        (sec + nsec / 1000000000) % 60) =
      daysFromCivil (year + (month - 1) / 12) ((month - 1) % 12 + 1) day * 86400 +
        hour * 3600 + min * 60 + sec + nsec / 1000000000 := by
    unfold daysFromCivil
    omega
  refine ⟨?_, ?_, ?_⟩
  · unfold Date
    simp only [norm_eq _ _ 12 (by decide), norm_eq _ _ 1000000000 (by decide),
      norm_eq _ _ 60 (by decide), norm_eq _ _ 24 (by decide)]
    rw [hW]
  · unfold Date
    simp only [norm_eq _ _ 1000000000 (by decide)]
  · rfl

/-- Building a time in location `l` from the wall-clock fields of `t`: the
wall clock of `t` is read as UTC and the zone offset `time.Date` finds for it in
`l` is subtracted. -/
theorem Date_of_fields (t : Instant) (l : Zone) (h0 : 0 ≤ t.nsec) (h1 : t.nsec < 1000000000) :
    Date t.Year t.Month t.Day t.Hour t.Minute t.Second t.Nanosecond l =
      ⟨t.abs - dateOffset l t.abs, t.nsec, l⟩ := by
  obtain ⟨u, n, z⟩ := Date_unix t.Year t.Month t.Day t.Hour t.Minute t.Second t.Nanosecond l
  obtain ⟨c1, c2, c3, c4, c5⟩ := daysFromCivil_civilFromDays (t.abs / 86400)
  have hm : (t.Month - 1) / 12 = 0 ∧ (t.Month - 1) % 12 + 1 = t.Month := by
    unfold Instant.Month
    omega
  have hn : t.Nanosecond / 1000000000 = 0 ∧ t.Nanosecond % 1000000000 = t.nsec := by
    unfold Instant.Nanosecond
    omega
  rw [hm.1, hm.2, hn.1] at u
  rw [hn.2] at n
  have hW : daysFromCivil (t.Year + 0) t.Month t.Day * 86400 + t.Hour * 3600 + t.Minute * 60 +
      t.Second + 0 = t.abs := by
    unfold Instant.Year Instant.Month Instant.Day
    simp only [Int.add_zero]
    rw [c1]
    unfold Instant.Hour Instant.Minute Instant.Second
    omega
  rw [hW] at u
  generalize Date t.Year t.Month t.Day t.Hour t.Minute t.Second t.Nanosecond l = r at u n z
  cases r
  simp only at u n z
  rw [u, n, z]

theorem Date_nsec_range (year month day hour min sec nsec : Int) (loc : Zone) :
    0 ≤ (Date year month day hour min sec nsec loc).nsec ∧
    (Date year month day hour min sec nsec loc).nsec < 1000000000 := by
  rw [(Date_unix year month day hour min sec nsec loc).2.1]
  omega

theorem build_nsec_range (t0 : Time) (localOffset : Int) :
    0 ≤ (t0.build localOffset).nsec ∧ (t0.build localOffset).nsec < 1000000000 :=
  Date_nsec_range _ _ _ _ _ _ _ _

/-- The instant `time.Date` builds in the zone of a location of `StrToTime`. -/
theorem Date_unix_zone (year month day hour min sec nsec : Int) (l : Location)
    (localOffset : Int) :
    (Date year month day hour min sec nsec (l.zone localOffset)).unix =
      daysFromCivil (year + (month - 1) / 12) ((month - 1) % 12 + 1) day * 86400 +
        hour * 3600 + min * 60 + sec + nsec / 1000000000 -
      (match l with
        | Location.Local => localOffset
        | Location.UTC => 0) := by
  rw [(Date_unix _ _ _ _ _ _ _ _).1]
  cases l <;> simp only [Location.zone, dateOffset_FixedZone]

/-- Times with the same wall-clock seconds and nanoseconds show the same wall
clock, and conversely. -/
theorem wallClock_eq_iff (r t : Instant) :
    r.wallClock = t.wallClock ↔ r.abs = t.abs ∧ r.nsec = t.nsec := by
  constructor
  · intro h
    unfold Instant.wallClock at h
    simp only [Prod.mk.injEq] at h
    obtain ⟨hy, hmo, hd, hh, hmi, hs, hn⟩ := h
    refine ⟨?_, hn⟩
    obtain ⟨c1, -⟩ := daysFromCivil_civilFromDays (r.abs / 86400)
    obtain ⟨d1, -⟩ := daysFromCivil_civilFromDays (t.abs / 86400)
    unfold Instant.Year at hy
    unfold Instant.Month at hmo
    unfold Instant.Day at hd
    rw [hy, hmo, hd, d1] at c1
    unfold Instant.Hour at hh
    unfold Instant.Minute at hmi
    unfold Instant.Second at hs
    omega
  · rintro ⟨h1, h2⟩
    unfold Instant.wallClock Instant.Year Instant.Month Instant.Day Instant.Hour Instant.Minute
      Instant.Second Instant.Nanosecond
    rw [h1, h2]

/-! ## Further lemmas on matches and on the body of `StrToTime` -/

/-- The match on an input that is exactly a date with four year digits: the
date is group 1 and every other group is empty. -/
theorem find_date_only (a b c d e f g h : Nat) (sep : Char) (hsep : sep = '-' ∨ sep = '/') :
    FindStringSubmatch [dig a, dig b, dig c, dig d, sep, dig e, dig f, sep, dig g, dig h] =
    [[dig a, dig b, dig c, dig d, sep, dig e, dig f, sep, dig g, dig h],
     [dig a, dig b, dig c, dig d, sep, dig e, dig f, sep, dig g, dig h], [], [], [], [], []] := by
  have e1 : isDateSep '-' = true := by decide
  have e2 : isDateSep '/' = true := by decide
  rcases hsep with rfl | rfl <;>
  simp [FindStringSubmatch, search, TIME_REAGEX_PATTERN, tailRe, dateRe, timeRe, Regex.rep,
    Regex.times, Regex.upTo, Regex.run, starRun, e1, e2, capGet, List.range, List.range.loop,
    isDigit_dig, isDateSep_dig, isColon_dig, isDot_dig, isSpaceOrT_dig, isSpaceOrZ_dig,
    isSign_dig, isColonOrDigit_dig]

theorem dateFields_four (a b c d e f g h : Nat) (sep : Char) (hsep : sep = '-' ∨ sep = '/')
    (nowYear : Int) :
    dateFields [dig a, dig b, dig c, dig d, sep, dig e, dig f, sep, dig g, dig h] nowYear =
      (if ((((a % 10 * 10 + b % 10) * 10 + c % 10) * 10 + d % 10 : Nat) : Int) < 100 then
          Int.tdiv nowYear 100 * 100 +
            ((((a % 10 * 10 + b % 10) * 10 + c % 10) * 10 + d % 10 : Nat) : Int)
        else ((((a % 10 * 10 + b % 10) * 10 + c % 10) * 10 + d % 10 : Nat) : Int),
       ((e % 10 * 10 + f % 10 : Nat) : Int), ((g % 10 * 10 + h % 10 : Nat) : Int)) := by
  have harr := dateArray_same_sep [dig a, dig b, dig c, dig d] [dig e, dig f] [dig g, dig h] sep
    (by rcases hsep with rfl | rfl <;> decide) (by simp [isDigit_dig]) (by simp [isDigit_dig])
    (by simp [isDigit_dig])
  simp only [List.cons_append, List.nil_append] at harr
  unfold dateFields
  simp only [harr]
  simp [Atoi_dig2, Atoi_dig4]

/-- The match on `YYYY-MM-DD hhmmss`: the six digits are the time group. -/
theorem find_compact_time (a b c d e f g h i j k l m n : Nat) (sep : Char)
    (hsep : sep = '-' ∨ sep = '/') :
    FindStringSubmatch [dig a, dig b, dig c, dig d, sep, dig e, dig f, sep, dig g, dig h, ' ',
      dig i, dig j, dig k, dig l, dig m, dig n] =
    [[dig a, dig b, dig c, dig d, sep, dig e, dig f, sep, dig g, dig h, ' ',
      dig i, dig j, dig k, dig l, dig m, dig n],
     [dig a, dig b, dig c, dig d, sep, dig e, dig f, sep, dig g, dig h],
     [dig i, dig j, dig k, dig l, dig m, dig n], [], [], [], []] := by
  have e1 : isDateSep '-' = true := by decide
  have e2 : isDateSep '/' = true := by decide
  have e3 : isSpaceOrT ' ' = true := by decide
  rcases hsep with rfl | rfl <;>
  simp [FindStringSubmatch, search, TIME_REAGEX_PATTERN, tailRe, dateRe, timeRe, Regex.rep,
    Regex.times, Regex.upTo, Regex.run, starRun, e1, e2, e3, capGet, List.range, List.range.loop,
    isDigit_dig, isDateSep_dig, isColon_dig, isDot_dig, isSpaceOrT_dig, isSpaceOrZ_dig,
    isSign_dig, isColonOrDigit_dig]

/-- The match on `YYYY-MM-DD hh:mm:ss`. -/
theorem find_colon_time (a b c d e f g h i j k l m n : Nat) (sep : Char)
    (hsep : sep = '-' ∨ sep = '/') :
    FindStringSubmatch [dig a, dig b, dig c, dig d, sep, dig e, dig f, sep, dig g, dig h, ' ',
      dig i, dig j, ':', dig k, dig l, ':', dig m, dig n] =
    [[dig a, dig b, dig c, dig d, sep, dig e, dig f, sep, dig g, dig h, ' ',
      dig i, dig j, ':', dig k, dig l, ':', dig m, dig n],
     [dig a, dig b, dig c, dig d, sep, dig e, dig f, sep, dig g, dig h],
     [dig i, dig j, ':', dig k, dig l, ':', dig m, dig n], [], [], [], []] := by
  have e1 : isDateSep '-' = true := by decide
  have e2 : isDateSep '/' = true := by decide
  have e3 : isSpaceOrT ' ' = true := by decide
  have e4 : isColon ':' = true := by decide
  rcases hsep with rfl | rfl <;>
  simp [FindStringSubmatch, search, TIME_REAGEX_PATTERN, tailRe, dateRe, timeRe, Regex.rep,
    Regex.times, Regex.upTo, Regex.run, starRun, e1, e2, e3, e4, capGet, List.range,
    List.range.loop, isDigit_dig, isDateSep_dig, isColon_dig, isDot_dig, isSpaceOrT_dig,
    isSpaceOrZ_dig, isSign_dig, isColonOrDigit_dig]

theorem timeFields_compact (i j k l m n : Nat) :
    timeFields [dig i, dig j, dig k, dig l, dig m, dig n] =
      (((i % 10 * 10 + j % 10 : Nat) : Int) * 10000 + ((k % 10 * 10 + l % 10 : Nat) : Int) * 100 +
        ((m % 10 * 10 + n % 10 : Nat) : Int), 0, 0) := by
  simp [timeFields, Split, Atoi, atoiDigits, isDigit_dig, digitVal_dig, dig_ne_minus,
    dig_ne_plus, dig_ne_colon]
  ring

theorem timeFields_colons (i j k l m n : Nat) :
    timeFields [dig i, dig j, ':', dig k, dig l, ':', dig m, dig n] =
      (((i % 10 * 10 + j % 10 : Nat) : Int), ((k % 10 * 10 + l % 10 : Nat) : Int),
        ((m % 10 * 10 + n % 10 : Nat) : Int)) := by
  simp [timeFields, Split, Atoi_dig2, dig_ne_colon]

/-- The code's split of a date whose two separators differ: neither split
yields three parts. -/
theorem dateArray_mixed_sep (ys mo da : List Char) (c1 c2 : Char) (hc1 : isDateSep c1 = true)
    (hc2 : isDateSep c2 = true) (hne : c1 ≠ c2)
    (hy : ∀ x ∈ ys, isDigit x = true) (hm : ∀ x ∈ mo, isDigit x = true)
    (hd : ∀ x ∈ da, isDigit x = true) :
    (Split (ys ++ c1 :: (mo ++ c2 :: da)) '-').length = 2 ∧
    (Split (ys ++ c1 :: (mo ++ c2 :: da)) '/').length = 2 ∧
    (dateArray (ys ++ c1 :: (mo ++ c2 :: da))).length = 2 := by
  have n1 : ∀ w : List Char, (∀ x ∈ w, isDigit x = true) → '-' ∉ w ∧ '/' ∉ w := by
    intro w hw
    exact ⟨fun e => (isDigit_ne_seps _ (hw _ e)).1 rfl, fun e => (isDigit_ne_seps _ (hw _ e)).2 rfl⟩
  unfold isDateSep at hc1 hc2
  simp only [Bool.or_eq_true, beq_iff_eq] at hc1 hc2
  have hsd : ('/' : Char) ≠ '-' := by decide
  have hds : ('-' : Char) ≠ '/' := by decide
  rcases hc1 with rfl | rfl <;> rcases hc2 with rfl | rfl
  · exact absurd rfl hne
  · have a1 : '-' ∉ mo ++ '/' :: da := by
      simp only [List.mem_append, List.mem_cons, not_or]
      exact ⟨(n1 mo hm).1, hds, (n1 da hd).1⟩
    have a2 : '/' ∉ ys ++ '-' :: mo := by
      simp only [List.mem_append, List.mem_cons, not_or]
      exact ⟨(n1 ys hy).2, hsd, (n1 mo hm).2⟩
    have s1 : Split (ys ++ '-' :: (mo ++ '/' :: da)) '-' = [ys, mo ++ '/' :: da] := by
      rw [Split_append_sep _ _ _ (n1 ys hy).1, Split_of_not_mem _ _ a1]
    have s2 : Split (ys ++ '-' :: (mo ++ '/' :: da)) '/' = [ys ++ '-' :: mo, da] := by
      have : ys ++ '-' :: (mo ++ '/' :: da) = (ys ++ '-' :: mo) ++ '/' :: da := by simp
      rw [this, Split_append_sep _ _ _ a2, Split_of_not_mem _ _ (n1 da hd).2]
    refine ⟨by rw [s1]; rfl, by rw [s2]; rfl, ?_⟩
    unfold dateArray
    simp [s1, s2]
  · have a1 : '/' ∉ mo ++ '-' :: da := by
      simp only [List.mem_append, List.mem_cons, not_or]
      exact ⟨(n1 mo hm).2, hsd, (n1 da hd).2⟩
    have a2 : '-' ∉ ys ++ '/' :: mo := by
      simp only [List.mem_append, List.mem_cons, not_or]
      exact ⟨(n1 ys hy).1, hds, (n1 mo hm).1⟩
    have s1 : Split (ys ++ '/' :: (mo ++ '-' :: da)) '/' = [ys, mo ++ '-' :: da] := by
      rw [Split_append_sep _ _ _ (n1 ys hy).2, Split_of_not_mem _ _ a1]
    have s2 : Split (ys ++ '/' :: (mo ++ '-' :: da)) '-' = [ys ++ '/' :: mo, da] := by
      have : ys ++ '/' :: (mo ++ '-' :: da) = (ys ++ '/' :: mo) ++ '-' :: da := by simp
      rw [this, Split_append_sep _ _ _ a2, Split_of_not_mem _ _ (n1 da hd).1]
    refine ⟨by rw [s2]; rfl, by rw [s1]; rfl, ?_⟩
    unfold dateArray
    simp [s1, s2]
  · exact absurd rfl hne

theorem Repeat_zero (n : Nat) :
    Repeat "0".toList (n : Int) = some (List.replicate n '0') := by
  unfold Repeat
  rw [if_neg (by omega)]
  simp

/-- The offset components of an offset whose colon-free form has at most 6
digits: the three two-character slices of that form padded with `0`. -/
theorem offsetHMS_padded (off : List Char) (hoff : ∀ c ∈ off, isColonOrDigit c = true)
    (hlen : (ReplaceAllEmpty off ':').length ≤ 6) :
    offsetHMS off = some (
      (decimalValue ((ReplaceAllEmpty off ':' ++
        List.replicate (6 - (ReplaceAllEmpty off ':').length) '0').take 2) : Int),
      (decimalValue (((ReplaceAllEmpty off ':' ++
        List.replicate (6 - (ReplaceAllEmpty off ':').length) '0').drop 2).take 2) : Int),
      (decimalValue (((ReplaceAllEmpty off ':' ++
        List.replicate (6 - (ReplaceAllEmpty off ':').length) '0').drop 4).take 2) : Int)) := by
  have hz := ReplaceAllEmpty_digits off hoff
  unfold offsetHMS
  simp only []
  rw [TrimLeft_digits _ hz]
  generalize ReplaceAllEmpty off ':' = z at hz hlen ⊢
  have hsub : (6 - (z.length : Int)) = ((6 - z.length : Nat) : Int) := by omega
  rw [hsub, Repeat_zero]
  simp only [Option.bind_eq_bind, Option.some_bind]
  have hzp : ∀ c ∈ z ++ List.replicate (6 - z.length) '0', isDigit c = true := by
    intro c hc
    rcases List.mem_append.mp hc with h | h
    · exact hz c h
    · rw [List.mem_replicate] at h
      rw [h.2]
      decide
  have hl : (z ++ List.replicate (6 - z.length) '0').length = 6 := by
    simp
    omega
  generalize z ++ List.replicate (6 - z.length) '0' = zp at hzp hl ⊢
  have s1 : slice zp 0 2 = some (zp.take 2) := by simp [slice, hl]
  have s2 : slice zp 2 4 = some ((zp.drop 2).take 2) := by simp [slice, hl]
  have s3 : slice zp 4 6 = some ((zp.drop 4).take 2) := by simp [slice, hl]
  simp only [Option.bind_eq_bind, Option.some_bind, s1, s2, s3, Option.pure_def]
  rw [Atoi_digits _ (fun c hc => hzp c (List.mem_of_mem_take hc)),
    Atoi_digits _ (fun c hc => hzp c (List.mem_of_mem_drop (List.mem_of_mem_take hc))),
    Atoi_digits _ (fun c hc => hzp c (List.mem_of_mem_drop (List.mem_of_mem_take hc)))]

theorem run_pattern_nondigit (c : Char) (t : List Char) (hc : isDigit c = false) :
    TIME_REAGEX_PATTERN.run (c :: t) [] (fun _ cs => some cs) = none := by
  simp [TIME_REAGEX_PATTERN, dateRe, Regex.rep, Regex.times, Regex.run, hc]

/-- A prefix without digits is skipped by the search. -/
theorem search_skip_nondigits (p s : List Char) (hp : ∀ c ∈ p, isDigit c = false) :
    search TIME_REAGEX_PATTERN (p ++ s) = search TIME_REAGEX_PATTERN s := by
  induction p with
  | nil => rfl
  | cons c t ih =>
    simp only [List.cons_append]
    rw [search, run_pattern_nondigit c _ (hp c (by simp))]
    exact ih (fun x hx => hp x (by simp [hx]))

theorem isSpace_cases (c : Char) (h : isSpace c = true) :
    c = '\t' ∨ c = '\n' ∨ c = Char.ofNat 12 ∨ c = '\r' ∨ c = ' ' := by
  unfold isSpace at h
  simpa [or_assoc] using h

/-- The match on `YYYY-MM-DD HH:MM:SS` followed by one whitespace character:
the whitespace is the marker group. -/
theorem find_trailing_space (a b c d e f g h i j k l m n : Nat) (sep ws : Char)
    (hsep : sep = '-' ∨ sep = '/') (hws : isSpace ws = true) :
    FindStringSubmatch [dig a, dig b, dig c, dig d, sep, dig e, dig f, sep, dig g, dig h, ' ',
      dig i, dig j, ':', dig k, dig l, ':', dig m, dig n, ws] =
    [[dig a, dig b, dig c, dig d, sep, dig e, dig f, sep, dig g, dig h, ' ',
      dig i, dig j, ':', dig k, dig l, ':', dig m, dig n, ws],
     [dig a, dig b, dig c, dig d, sep, dig e, dig f, sep, dig g, dig h],
     [dig i, dig j, ':', dig k, dig l, ':', dig m, dig n], [], [ws], [], []] := by
  have e1 : isDateSep '-' = true := by decide
  have e2 : isDateSep '/' = true := by decide
  have e3 : isSpaceOrT ' ' = true := by decide
  have e4 : isColon ':' = true := by decide
  have w1 : isDigit ws = false ∧ isColon ws = false ∧ isDot ws = false ∧
      isSpaceOrZ ws = true ∧ isSign ws = false ∧ isColonOrDigit ws = false := by
    rcases isSpace_cases ws hws with rfl | rfl | rfl | rfl | rfl <;> decide
  obtain ⟨w1, w2, w3, w4, w5, w6⟩ := w1
  rcases hsep with rfl | rfl <;>
  simp [FindStringSubmatch, search, TIME_REAGEX_PATTERN, tailRe, dateRe, timeRe, Regex.rep,
    Regex.times, Regex.upTo, Regex.run, starRun, e1, e2, e3, e4, w1, w2, w3, w4, w5, w6, capGet,
    List.range, List.range.loop, isDigit_dig, isDateSep_dig, isColon_dig, isDot_dig,
    isSpaceOrT_dig, isSpaceOrZ_dig, isSign_dig, isColonOrDigit_dig]

/-- The match on `YYYY-MM-DDTHH:MM:SS` followed by a sign and `hh:mm`. -/
theorem find_signed_offset (a b c d e f g h i j k l m n o1 o2 o3 o4 : Nat) (sign : Char)
    (hsign : sign = '+' ∨ sign = '-') :
    FindStringSubmatch [dig a, dig b, dig c, dig d, '-', dig e, dig f, '-', dig g, dig h, 'T',
      dig i, dig j, ':', dig k, dig l, ':', dig m, dig n, sign, dig o1, dig o2, ':', dig o3,
      dig o4] =
    [[dig a, dig b, dig c, dig d, '-', dig e, dig f, '-', dig g, dig h, 'T',
      dig i, dig j, ':', dig k, dig l, ':', dig m, dig n, sign, dig o1, dig o2, ':', dig o3,
      dig o4],
     [dig a, dig b, dig c, dig d, '-', dig e, dig f, '-', dig g, dig h],
     [dig i, dig j, ':', dig k, dig l, ':', dig m, dig n], [], [], [sign],
     [dig o1, dig o2, ':', dig o3, dig o4]] := by
  have e1 : isDateSep '-' = true := by decide
  have e2 : isSpaceOrT 'T' = true := by decide
  have e3 : isColon ':' = true := by decide
  have e4 : isColonOrDigit ':' = true := by decide
  have w : isDigit sign = false ∧ isColon sign = false ∧ isDot sign = false ∧
      isSpaceOrZ sign = false ∧ isSign sign = true := by
    rcases hsign with rfl | rfl <;> decide
  obtain ⟨w1, w2, w3, w4, w5⟩ := w
  simp [FindStringSubmatch, search, TIME_REAGEX_PATTERN, tailRe, dateRe, timeRe, Regex.rep,
    Regex.times, Regex.upTo, Regex.run, starRun, e1, e2, e3, e4, w1, w2, w3, w4, w5, capGet,
    List.range, List.range.loop, isDigit_dig, isDateSep_dig, isColon_dig, isDot_dig,
    isSpaceOrT_dig, isSpaceOrZ_dig, isSign_dig, isColonOrDigit_dig]

theorem decimalValue_dig2 (a b : Nat) : decimalValue [dig a, dig b] = a % 10 * 10 + b % 10 := by
  have h := Atoi_digits [dig a, dig b] (by simp [isDigit_dig])
  rw [Atoi_dig2] at h
  exact_mod_cast h.symm

theorem offsetHMS_hhmm (o1 o2 o3 o4 : Nat) :
    offsetHMS [dig o1, dig o2, ':', dig o3, dig o4] =
      some (((o1 % 10 * 10 + o2 % 10 : Nat) : Int), ((o3 % 10 * 10 + o4 % 10 : Nat) : Int), 0) := by
  have hr : ReplaceAllEmpty [dig o1, dig o2, ':', dig o3, dig o4] ':' =
      [dig o1, dig o2, dig o3, dig o4] := by
    simp [ReplaceAllEmpty, dig_ne_colon]
  have hoff : ∀ c ∈ [dig o1, dig o2, ':', dig o3, dig o4], isColonOrDigit c = true := by
    have e4 : isColonOrDigit ':' = true := by decide
    simp [isColonOrDigit_dig, e4]
  rw [offsetHMS_padded _ hoff (by rw [hr]; simp), hr]
  have hz : decimalValue ['0', '0'] = 0 := by decide
  simp [List.replicate, decimalValue_dig2, hz]

/-- The shift of `StrToTime` for offset components that are not negative. -/
theorem zoneShift_nonneg (h m s : Int) (sign : List Char) (localOffset hour min sec : Int)
    (h0 : 0 ≤ h) (m0 : 0 ≤ m) (s0 : 0 ≤ s) :
    zoneShift h m s sign localOffset hour min sec =
      if h * 3600 + m * 60 + s ≠ localOffset then
        (Location.UTC, if sign = ['+'] then hour - h else hour + h,
          if sign = ['+'] then min - m else min + m,
          if sign = ['+'] then sec - s else sec + s)
      else (Location.Local, hour, min, sec) := by
  have eh : ∀ x : Int, (if h > 0 then x - h else x) = x - h := by
    intro x
    split
    · rfl
    · have : h = 0 := by omega
      simp [this]
  have em : ∀ x : Int, (if m > 0 then x - m else x) = x - m := by
    intro x
    split
    · rfl
    · have : m = 0 := by omega
      simp [this]
  have es : ∀ x : Int, (if s > 0 then x - s else x) = x - s := by
    intro x
    split
    · rfl
    · have : s = 0 := by omega
      simp [this]
  have eh' : ∀ x : Int, (if h > 0 then x + h else x) = x + h := by
    intro x
    split
    · rfl
    · have : h = 0 := by omega
      simp [this]
  have em' : ∀ x : Int, (if m > 0 then x + m else x) = x + m := by
    intro x
    split
    · rfl
    · have : m = 0 := by omega
      simp [this]
  have es' : ∀ x : Int, (if s > 0 then x + s else x) = x + s := by
    intro x
    split
    · rfl
    · have : s = 0 := by omega
      simp [this]
  unfold zoneShift
  simp only [eh, em, es, eh', em', es']
  by_cases hne : h * 3600 + m * 60 + s = localOffset
  · simp [hne]
  · simp only [ne_eq, hne, not_false_eq_true, if_true]
    by_cases hplus : sign = ['+']
    · subst hplus
      simp
    · by_cases hminus : sign = ['-']
      · subst hminus
        simp
      · simp [hplus, hminus]

/-- For every input `YYYY-MM-DDTHH:MM:SS+hh:mm` or `YYYY-MM-DDTHH:MM:SS-hh:mm`
with a year of at least 100, `StrToTime` succeeds, and the instant it returns
is the instant the text denotes except in one case: the sign is `-` and the
magnitude `hh:mm` equals a non-zero local offset. -/
theorem StrToTime_signed_offset_instant (a b c d e f g h i j k l m n o1 o2 o3 o4 : Nat)
    (sign : Char) (nowYear localOffset : Int) (hsign : sign = '+' ∨ sign = '-')
    (hy : 100 ≤ ((a % 10 * 10 + b % 10) * 10 + c % 10) * 10 + d % 10) :
    ∃ t, StrToTime [dig a, dig b, dig c, dig d, '-', dig e, dig f, '-', dig g, dig h, 'T',
        dig i, dig j, ':', dig k, dig l, ':', dig m, dig n, sign, dig o1, dig o2, ':', dig o3,
        dig o4] nowYear localOffset = Outcome.ok t ∧
      ((t.build localOffset).unix =
          denotedUnix ((((a % 10 * 10 + b % 10) * 10 + c % 10) * 10 + d % 10 : Nat) : Int)
            ((e % 10 * 10 + f % 10 : Nat) : Int) ((g % 10 * 10 + h % 10 : Nat) : Int)
            ((i % 10 * 10 + j % 10 : Nat) : Int) ((k % 10 * 10 + l % 10 : Nat) : Int)
            ((m % 10 * 10 + n % 10 : Nat) : Int) sign
            ((o1 % 10 * 10 + o2 % 10 : Nat) : Int) ((o3 % 10 * 10 + o4 % 10 : Nat) : Int) ↔
        ¬ (sign = '-' ∧
          ((o1 % 10 * 10 + o2 % 10 : Nat) : Int) * 3600 +
            ((o3 % 10 * 10 + o4 % 10 : Nat) : Int) * 60 = localOffset ∧ localOffset ≠ 0)) := by
  have hge : ¬ (((((a % 10 * 10 + b % 10) * 10 + c % 10) * 10 + d % 10 : Nat) : Int) < 100) := by
    omega
  rw [StrToTime_of_match _ _ _ _ _ _ _ _ _ _
    (find_signed_offset a b c d e f g h i j k l m n o1 o2 o3 o4 sign hsign)]
  unfold fromGroups
  have heff : effectiveOffset [] [dig o1, dig o2, ':', dig o3, dig o4] =
      [dig o1, dig o2, ':', dig o3, dig o4] := by
    simp [effectiveOffset]
  rw [dateFields_four a b c d e f g h '-' (Or.inl rfl), if_neg hge, timeFields_colons, heff]
  have hns : nsecField [] = 0 := by decide
  simp only [offsetHMS_hhmm, hns, ne_eq, reduceCtorEq, not_false_eq_true, if_true]
  rw [zoneShift_nonneg _ _ _ _ _ _ _ _ (Int.natCast_nonneg _) (Int.natCast_nonneg _) (le_refl 0)]
  generalize ((((a % 10 * 10 + b % 10) * 10 + c % 10) * 10 + d % 10 : Nat) : Int) = Y
  generalize ((e % 10 * 10 + f % 10 : Nat) : Int) = M
  generalize ((g % 10 * 10 + h % 10 : Nat) : Int) = D
  generalize ((i % 10 * 10 + j % 10 : Nat) : Int) = H
  generalize ((k % 10 * 10 + l % 10 : Nat) : Int) = Mi
  generalize ((m % 10 * 10 + n % 10 : Nat) : Int) = S
  have hhh : (0 : Int) ≤ ((o1 % 10 * 10 + o2 % 10 : Nat) : Int) := Int.natCast_nonneg _
  have hmm : (0 : Int) ≤ ((o3 % 10 * 10 + o4 % 10 : Nat) : Int) := Int.natCast_nonneg _
  generalize ((o1 % 10 * 10 + o2 % 10 : Nat) : Int) = hh at hhh ⊢
  generalize ((o3 % 10 * 10 + o4 % 10 : Nat) : Int) = mm at hmm ⊢
  have hpm : ('+' : Char) ≠ '-' := by decide
  by_cases hloc : hh * 3600 + mm * 60 + 0 = localOffset
  · simp only [hloc, ne_eq, not_true_eq_false, if_false]
    refine ⟨_, rfl, ?_⟩
    unfold Time.build denotedUnix
    rw [Date_unix_zone, (Date_unix _ _ _ _ _ _ _ _).1, dateOffset_FixedZone]
    simp only []
    rcases hsign with rfl | rfl
    · simp only [hpm, if_false, false_and, not_false_eq_true, iff_true]
      omega
    · simp only [if_true, true_and]
      constructor
      · intro h1 h2
        apply h2.2
        omega
      · intro h1
        have : localOffset = 0 := by
          by_contra h0
          exact h1 ⟨by omega, h0⟩
        omega
  · simp only [ne_eq, hloc, not_false_eq_true, if_true]
    refine ⟨_, rfl, ?_⟩
    have hne : ¬ (hh * 3600 + mm * 60 = localOffset) := by
      intro h1
      apply hloc
      omega
    unfold Time.build denotedUnix
    rw [Date_unix_zone, (Date_unix _ _ _ _ _ _ _ _).1, dateOffset_FixedZone]
    simp only []
    rcases hsign with rfl | rfl
    · simp only [List.cons.injEq, and_true, if_true, hpm, if_false, false_and,
        not_false_eq_true, iff_true]
      omega
    · have hmp : ¬ (('-' : Char) = '+') := by decide
      simp only [List.cons.injEq, and_true, hmp, if_false, if_true, hne, false_and, and_false,
        not_false_eq_true, iff_true]
      omega

/-! ## `ConvertZone`: the steps -/

/-- What `ConvertZone` does, step by step: a panic or an error of `StrToTime`
is passed on; then a failed lookup of the first `fromZone` argument, then a
failed lookup of `toZone` gives that lookup's error; otherwise a time is
returned. -/
theorem ConvertZone_steps {E : Type} (LoadLocation : List Char → Except E Zone)
    (nowYear localOffset : Int) (strTime toZone : List Char) (fromZone : List (List Char)) :
    (StrToTime strTime nowYear localOffset = Outcome.panic →
      ConvertZone LoadLocation nowYear localOffset strTime toZone fromZone =
        ConvertOutcome.panic) ∧
    (StrToTime strTime nowYear localOffset = Outcome.unsupported →
      ConvertZone LoadLocation nowYear localOffset strTime toZone fromZone =
        ConvertOutcome.unsupported) ∧
    (∀ t0, StrToTime strTime nowYear localOffset = Outcome.ok t0 →
      (∀ f rest e, fromZone = f :: rest → LoadLocation f = Except.error e →
        ConvertZone LoadLocation nowYear localOffset strTime toZone fromZone =
          ConvertOutcome.lookupError e) ∧
      (∀ e, (fromZone = [] ∨ ∃ f rest l, fromZone = f :: rest ∧ LoadLocation f = Except.ok l) →
        LoadLocation toZone = Except.error e →
        ConvertZone LoadLocation nowYear localOffset strTime toZone fromZone =
          ConvertOutcome.lookupError e) ∧
      (∀ l, fromZone = [] → LoadLocation toZone = Except.ok l →
        ConvertZone LoadLocation nowYear localOffset strTime toZone fromZone =
          ConvertOutcome.ok ((t0.build localOffset).In l)) ∧
      (∀ f rest zf l, fromZone = f :: rest → LoadLocation f = Except.ok zf →
        LoadLocation toZone = Except.ok l →
        ConvertZone LoadLocation nowYear localOffset strTime toZone fromZone =
          ConvertOutcome.ok ((Date (t0.build localOffset).Year (t0.build localOffset).Month
            (t0.build localOffset).Day (t0.build localOffset).Hour
            (t0.build localOffset).Minute (t0.build localOffset).Second
            (t0.build localOffset).Nanosecond zf).In l))) := by
  refine ⟨fun h => by simp [ConvertZone, h], fun h => by simp [ConvertZone, h], ?_⟩
  intro t0 h
  refine ⟨?_, ?_, ?_, ?_⟩
  · rintro f rest e rfl hf
    simp [ConvertZone, h, hf]
  · rintro e (rfl | ⟨f, rest, l, rfl, hf⟩) hto
    · simp [ConvertZone, h, hto]
    · simp [ConvertZone, h, hf, hto]
  · rintro l rfl hto
    simp [ConvertZone, h, hto]
  · rintro f rest zf l rfl hf hto
    simp [ConvertZone, h, hf, hto]

/-! ## The claims about date-only input, `ConvertZone`, offsets and surrounding text -/

/-- C11: for every input that is exactly a date `YYYY-MM-DD` or `YYYY/MM/DD`
(four year digits, the same separator twice, year at least 100), `StrToTime`
succeeds with year, month and day equal to the written numbers, hour, minute,
second and nanosecond 0, and the local zone; the two spellings of a date give
the same result. -/
theorem StrToTime_date_only (a b c d e f g h : Nat) (nowYear localOffset : Int)
    (hy : 100 ≤ ((a % 10 * 10 + b % 10) * 10 + c % 10) * 10 + d % 10) :
    (∀ sep : Char, sep = '-' ∨ sep = '/' →
      StrToTime [dig a, dig b, dig c, dig d, sep, dig e, dig f, sep, dig g, dig h]
          nowYear localOffset =
        Outcome.ok ⟨((((a % 10 * 10 + b % 10) * 10 + c % 10) * 10 + d % 10 : Nat) : Int),
          ((e % 10 * 10 + f % 10 : Nat) : Int), ((g % 10 * 10 + h % 10 : Nat) : Int),
          0, 0, 0, 0, Location.Local⟩) ∧
    StrToTime [dig a, dig b, dig c, dig d, '/', dig e, dig f, '/', dig g, dig h]
        nowYear localOffset =
      StrToTime [dig a, dig b, dig c, dig d, '-', dig e, dig f, '-', dig g, dig h]
        nowYear localOffset := by
  have key : ∀ sep : Char, sep = '-' ∨ sep = '/' →
      StrToTime [dig a, dig b, dig c, dig d, sep, dig e, dig f, sep, dig g, dig h]
          nowYear localOffset =
        Outcome.ok ⟨((((a % 10 * 10 + b % 10) * 10 + c % 10) * 10 + d % 10 : Nat) : Int),
          ((e % 10 * 10 + f % 10 : Nat) : Int), ((g % 10 * 10 + h % 10 : Nat) : Int),
          0, 0, 0, 0, Location.Local⟩ := by
    intro sep hsep
    have hge : ¬ (((((a % 10 * 10 + b % 10) * 10 + c % 10) * 10 + d % 10 : Nat) : Int) < 100) := by
      omega
    rw [StrToTime_of_match _ _ _ _ _ _ _ _ _ _ (find_date_only a b c d e f g h sep hsep)]
    unfold fromGroups
    rw [dateFields_four a b c d e f g h sep hsep, if_neg hge]
    simp [timeFields, nsecField, effectiveOffset]
  exact ⟨key, (key '/' (Or.inr rfl)).trans (key '-' (Or.inl rfl)).symm⟩

theorem StrToTime_date_only_witness :
    StrToTime "2018-02-09".toList 2018 28800 =
      Outcome.ok ⟨2018, 2, 9, 0, 0, 0, 0, Location.Local⟩ ∧
    StrToTime "2018/02/09".toList 2018 28800 = StrToTime "2018-02-09".toList 2018 28800 :=
  ⟨(StrToTime_date_only 2 0 1 8 0 2 0 9 2018 28800 (by decide)).1 '-' (Or.inl rfl),
    (StrToTime_date_only 2 0 1 8 0 2 0 9 2018 28800 (by decide)).2⟩

/-- C12 (failing input): on `2018-02-09 20:46:17 +08000000` `StrToTime` panics
inside `ConvertZone`, so `ConvertZone` neither returns an error nor returns a
time, whatever the zones and the zone table are. -/
theorem ConvertZone_panics_long_offset {E : Type} (LoadLocation : List Char → Except E Zone)
    (nowYear localOffset : Int) (toZone : List Char) (fromZone : List (List Char)) :
    ConvertZone LoadLocation nowYear localOffset "2018-02-09 20:46:17 +08000000".toList
      toZone fromZone = ConvertOutcome.panic := by
  apply (ConvertZone_steps LoadLocation nowYear localOffset _ toZone fromZone).1
  rw [StrToTime_eq_panic_iff]
  exact ⟨"2018-02-09 20:46:17 +08000000".toList, "2018-02-09".toList, "20:46:17".toList, [],
    " ".toList, "+".toList, "08000000".toList, by decide, by decide⟩

/-- C13 (counterexample): `2018-03-11 02:30:00` with `fromZone` `America/New_York`,
where the clocks went from 02:00 to 03:00 on that day. `ConvertZone` succeeds,
but the wall clock of its result in New York is 01:30:00, not the 02:30:00 that
the result of `StrToTime` shows; no instant at all shows 2018-03-11 02:30:00 in
New York. -/
theorem ConvertZone_dst_gap_counterexample :
    StrToTime "2018-03-11 02:30:00".toList 2018 28800 =
      Outcome.ok ⟨2018, 3, 11, 2, 30, 0, 0, Location.Local⟩ ∧
    (Time.build ⟨2018, 3, 11, 2, 30, 0, 0, Location.Local⟩ 28800).wallClock =
      (2018, 3, 11, 2, 30, 0, 0) ∧
    sampleZones "America/New_York".toList = Except.ok newYork ∧
    ConvertZone sampleZones 2018 28800 "2018-03-11 02:30:00".toList "UTC".toList
      ["America/New_York".toList] = ConvertOutcome.ok ⟨1520749800, 0, FixedZone 0⟩ ∧
    (Instant.In ⟨1520749800, 0, FixedZone 0⟩ newYork).wallClock = (2018, 3, 11, 1, 30, 0, 0) ∧
    (Instant.In ⟨1520749800, 0, FixedZone 0⟩ newYork).wallClock ≠
      (Time.build ⟨2018, 3, 11, 2, 30, 0, 0, Location.Local⟩ 28800).wallClock ∧
    (∀ u n : Int, (Instant.mk u n newYork).wallClock ≠ (2018, 3, 11, 2, 30, 0, 0)) := by
  refine ⟨by decide, by decide, rfl, by decide, by decide, by decide, ?_⟩
  intro u n h
  have hw : (Instant.mk 1520735400 0 (FixedZone 0)).wallClock = (2018, 3, 11, 2, 30, 0, 0) := by
    decide
  have hn : n = 0 := by
    unfold Instant.wallClock Instant.Nanosecond at h
    simp only [Prod.mk.injEq] at h
    exact h.2.2.2.2.2.2
  subst hn
  rw [← hw, wallClock_eq_iff] at h
  have h1 := h.1
  have h2 : (Instant.mk 1520735400 0 (FixedZone 0)).abs = 1520735400 := by decide
  rw [h2] at h1
  unfold Instant.abs Zone.lookup newYork lookupFrom lookupFrom lookupFrom at h1
  simp only [] at h1
  split at h1
  · simp only [] at h1
    omega
  · split at h1
    · simp only [] at h1
      omega
    · simp only [] at h1
      omega

/-- C13 (amended): when `ConvertZone` succeeds, the result is tagged with the
location of `toZone`. Without a `fromZone` it is the same absolute instant as
the result of `StrToTime`. With a `fromZone` `f` it is `time.Date` of the year,
month, day, hour, minute, second and nanosecond that the result of `StrToTime`
shows, in the location of `f`. Its wall clock in `f` shows these fields exactly
when the offset `f` has at the returned instant is the offset `time.Date`
subtracted. That is so whenever `f` has a fixed offset, and whenever the wall
clock read as UTC, less the offset `f` has there, lies in the period of `f` in
which that offset is in force. Only the first `fromZone` argument is used. -/
theorem ConvertZone_instant {E : Type} (LoadLocation : List Char → Except E Zone)
    (nowYear localOffset : Int) (strTime toZone : List Char) (fromZone : List (List Char))
    (t0 : Time) (r : Instant)
    (hparse : StrToTime strTime nowYear localOffset = Outcome.ok t0)
    (hok : ConvertZone LoadLocation nowYear localOffset strTime toZone fromZone =
      ConvertOutcome.ok r) :
    LoadLocation toZone = Except.ok r.loc ∧
    (fromZone = [] →
      r.unix = (t0.build localOffset).unix ∧ r.nsec = (t0.build localOffset).nsec) ∧
    (∀ f rest, fromZone = f :: rest →
      ∃ zf, LoadLocation f = Except.ok zf ∧
        r = (Date (t0.build localOffset).Year (t0.build localOffset).Month
          (t0.build localOffset).Day (t0.build localOffset).Hour
          (t0.build localOffset).Minute (t0.build localOffset).Second
          (t0.build localOffset).Nanosecond zf).In r.loc ∧
        r.unix = (t0.build localOffset).abs - dateOffset zf (t0.build localOffset).abs ∧
        r.nsec = (t0.build localOffset).nsec ∧
        ((r.In zf).wallClock = (t0.build localOffset).wallClock ↔
          (zf.lookup r.unix).1 = (t0.build localOffset).abs - r.unix) ∧
        (zf.tx = [] → (r.In zf).wallClock = (t0.build localOffset).wallClock) ∧
        (zf.tx.Pairwise (fun a b => a.1 < b.1) →
          (zf.lookup (t0.build localOffset).abs).2.1 ≤
            (t0.build localOffset).abs - (zf.lookup (t0.build localOffset).abs).1 →
          (t0.build localOffset).abs - (zf.lookup (t0.build localOffset).abs).1 <
            (zf.lookup (t0.build localOffset).abs).2.2 →
          (r.In zf).wallClock = (t0.build localOffset).wallClock ∧
          r.unix = (t0.build localOffset).abs - (zf.lookup (t0.build localOffset).abs).1)) ∧
    (∀ f rest, fromZone = f :: rest →
      ConvertZone LoadLocation nowYear localOffset strTime toZone fromZone =
        ConvertZone LoadLocation nowYear localOffset strTime toZone [f]) := by
  obtain ⟨s1, s2, s3, s4⟩ :=
    (ConvertZone_steps LoadLocation nowYear localOffset strTime toZone fromZone).2.2 t0 hparse
  have hlast : ∀ f rest, fromZone = f :: rest →
      ConvertZone LoadLocation nowYear localOffset strTime toZone fromZone =
        ConvertZone LoadLocation nowYear localOffset strTime toZone [f] := by
    rintro f rest rfl
    simp [ConvertZone]
  cases hto : LoadLocation toZone with
  | error e =>
    cases fromZone with
    | nil =>
      rw [s2 e (Or.inl rfl) hto] at hok
      cases hok
    | cons f rest =>
      cases hf : LoadLocation f with
      | error e1 =>
        rw [s1 f rest e1 rfl hf] at hok
        cases hok
      | ok zf =>
        rw [s2 e (Or.inr ⟨f, rest, zf, rfl, hf⟩) hto] at hok
        cases hok
  | ok l =>
    cases fromZone with
    | nil =>
      rw [s3 l rfl hto] at hok
      cases hok
      exact ⟨rfl, fun _ => ⟨rfl, rfl⟩, fun f rest h => (by cases h), hlast⟩
    | cons f rest =>
      cases hf : LoadLocation f with
      | error e1 =>
        rw [s1 f rest e1 rfl hf] at hok
        cases hok
      | ok zf =>
        rw [s4 f rest zf l rfl hf hto] at hok
        have hd := Date_of_fields (t0.build localOffset) zf (build_nsec_range t0 localOffset).1
          (build_nsec_range t0 localOffset).2
        generalize t0.build localOffset = t at hok hd ⊢
        cases hok
        rw [hd]
        have hiff : ((Instant.In (Instant.In ⟨t.abs - dateOffset zf t.abs, t.nsec, zf⟩ l)
              zf).wallClock = t.wallClock ↔
            (zf.lookup (t.abs - dateOffset zf t.abs)).1 =
              t.abs - (t.abs - dateOffset zf t.abs)) := by
          rw [wallClock_eq_iff]
          simp only [Instant.In, Instant.abs, and_true]
          constructor <;> intro h <;> omega
        refine ⟨rfl, fun h => (by cases h), ?_, hlast⟩
        intro f1 rest1 h1
        cases h1
        refine ⟨zf, hf, ?_, rfl, rfl, hiff, ?_, ?_⟩
        · rw [hd]
          rfl
        · intro htx
          rw [hiff]
          have hz : zf = FixedZone zf.first := by
            cases zf
            simp only [FixedZone] at htx ⊢
            rw [htx]
          rw [hz, dateOffset_FixedZone, lookup_FixedZone]
          simp only [FixedZone]
          omega
        · intro hs h1 h2
          obtain ⟨e1, e2⟩ := dateOffset_period zf t.abs hs h1 h2
          refine ⟨?_, ?_⟩
          · rw [hiff, e1, e2]
            omega
          · simp only [Instant.In]
            rw [e1]

theorem ConvertZone_instant_witness :
    StrToTime "2018-02-09 20:46:17".toList 2018 28800 =
      Outcome.ok ⟨2018, 2, 9, 20, 46, 17, 0, Location.Local⟩ ∧
    ConvertZone sampleZones 2018 28800 "2018-02-09 20:46:17".toList "UTC".toList
      ["America/New_York".toList] = ConvertOutcome.ok ⟨1518227177, 0, FixedZone 0⟩ ∧
    (Instant.In ⟨1518227177, 0, FixedZone 0⟩ newYork).wallClock =
      (Time.build ⟨2018, 2, 9, 20, 46, 17, 0, Location.Local⟩ 28800).wallClock ∧
    (Time.build ⟨2018, 2, 9, 20, 46, 17, 0, Location.Local⟩ 28800).wallClock =
      (2018, 2, 9, 20, 46, 17, 0) := by
  refine ⟨by decide, by decide, ?_, by decide⟩
  obtain ⟨zf, hz, -, -, -, -, -, hper⟩ :=
    (ConvertZone_instant sampleZones 2018 28800 "2018-02-09 20:46:17".toList "UTC".toList
      ["America/New_York".toList] ⟨2018, 2, 9, 20, 46, 17, 0, Location.Local⟩
      ⟨1518227177, 0, FixedZone 0⟩ (by decide) (by decide)).2.2.1 "America/New_York".toList []
      rfl
  have h2 : sampleZones "America/New_York".toList = Except.ok newYork := rfl
  rw [h2] at hz
  cases hz
  exact (hper (by decide) (by decide) (by decide)).1

/-- C14 (counterexample): `2018-02-09 204617` is accepted, but its hour, minute
and second are 204617, 0 and 0, not the 20, 46 and 17 of `2018-02-09 20:46:17`. -/
theorem StrToTime_compact_time_counterexample :
    StrToTime "2018-02-09 204617".toList 2018 28800 =
      Outcome.ok ⟨2018, 2, 9, 204617, 0, 0, 0, Location.Local⟩ ∧
    StrToTime "2018-02-09 20:46:17".toList 2018 28800 =
      Outcome.ok ⟨2018, 2, 9, 20, 46, 17, 0, Location.Local⟩ ∧
    StrToTime "2018-02-09 204617".toList 2018 28800 ≠
      StrToTime "2018-02-09 20:46:17".toList 2018 28800 := by
  decide

/-- C14 (amended): for every date `YYYY-MM-DD` (or `YYYY/MM/DD`) and all
two-digit `hh`, `mm`, `ss`, the input `YYYY-MM-DD hhmmss` is accepted; its time
group has no colon to split on, so the hour handed to the builder is the
six-digit number `hhmmss` and minute and second are 0, while
`YYYY-MM-DD hh:mm:ss` yields hour `hh`, minute `mm` and second `ss`; date,
nanosecond and zone are the same for both. -/
theorem StrToTime_compact_time (a b c d e f g h i j k l m n : Nat) (sep : Char)
    (nowYear localOffset : Int) (hsep : sep = '-' ∨ sep = '/') :
    StrToTime [dig a, dig b, dig c, dig d, sep, dig e, dig f, sep, dig g, dig h, ' ',
        dig i, dig j, dig k, dig l, dig m, dig n] nowYear localOffset =
      Outcome.ok ⟨
        (dateFields [dig a, dig b, dig c, dig d, sep, dig e, dig f, sep, dig g, dig h]
          nowYear).1,
        ((e % 10 * 10 + f % 10 : Nat) : Int), ((g % 10 * 10 + h % 10 : Nat) : Int),
        ((i % 10 * 10 + j % 10 : Nat) : Int) * 10000 + ((k % 10 * 10 + l % 10 : Nat) : Int) * 100 +
          ((m % 10 * 10 + n % 10 : Nat) : Int), 0, 0, 0, Location.Local⟩ ∧
    StrToTime [dig a, dig b, dig c, dig d, sep, dig e, dig f, sep, dig g, dig h, ' ',
        dig i, dig j, ':', dig k, dig l, ':', dig m, dig n] nowYear localOffset =
      Outcome.ok ⟨
        (dateFields [dig a, dig b, dig c, dig d, sep, dig e, dig f, sep, dig g, dig h]
          nowYear).1,
        ((e % 10 * 10 + f % 10 : Nat) : Int), ((g % 10 * 10 + h % 10 : Nat) : Int),
        ((i % 10 * 10 + j % 10 : Nat) : Int), ((k % 10 * 10 + l % 10 : Nat) : Int),
        ((m % 10 * 10 + n % 10 : Nat) : Int), 0, Location.Local⟩ := by
  constructor
  · rw [StrToTime_of_match _ _ _ _ _ _ _ _ _ _ (find_compact_time a b c d e f g h i j k l m n sep hsep)]
    unfold fromGroups
    rw [timeFields_compact, dateFields_four a b c d e f g h sep hsep]
    simp [nsecField, effectiveOffset]
  · rw [StrToTime_of_match _ _ _ _ _ _ _ _ _ _ (find_colon_time a b c d e f g h i j k l m n sep hsep)]
    unfold fromGroups
    rw [timeFields_colons, dateFields_four a b c d e f g h sep hsep]
    simp [nsecField, effectiveOffset]

theorem StrToTime_compact_time_witness :
    StrToTime "2018-02-09 204617".toList 2018 28800 =
      Outcome.ok ⟨2018, 2, 9, 204617, 0, 0, 0, Location.Local⟩ ∧
    StrToTime "2018-02-09 20:46:17".toList 2018 28800 =
      Outcome.ok ⟨2018, 2, 9, 20, 46, 17, 0, Location.Local⟩ :=
  ⟨((StrToTime_compact_time 2 0 1 8 0 2 0 9 2 0 4 6 1 7 '-' 2018 28800 (Or.inl rfl)).1).trans
      (by decide),
    ((StrToTime_compact_time 2 0 1 8 0 2 0 9 2 0 4 6 1 7 '-' 2018 28800 (Or.inl rfl)).2).trans
      (by decide)⟩

/-- C15 (counterexample): the grammar matches `2018-02/09` with that text as
the date group, the group splits into two parts on `-` and into two parts on
`/`, and the all-zero fallback is taken. -/
theorem StrToTime_mixed_separators_counterexample :
    FindStringSubmatch "2018-02/09".toList =
      ["2018-02/09".toList, "2018-02/09".toList, [], [], [], [], []] ∧
    Split "2018-02/09".toList '-' = ["2018".toList, "02/09".toList] ∧
    Split "2018-02/09".toList '/' = ["2018-02".toList, "09".toList] ∧
    StrToTime "2018-02/09".toList 2018 28800 =
      Outcome.ok ⟨0, 0, 0, 0, 0, 0, 0, Location.Local⟩ := by
  decide

/-- C15 (amended): on every match the date group is three digit runs joined by
two separators. When the two separators are the same character the group
splits into exactly these three parts, the fallback is not taken, and the year
(before century expansion), month and day handed to the builder are the three
digit runs. When the separators differ neither split yields three parts and
year, month and day are 0. -/
theorem StrToTime_date_split (str m0 d t f mk sg off : List Char)
    (nowYear localOffset : Int) (tm : Time)
    (hmatch : FindStringSubmatch str = [m0, d, t, f, mk, sg, off])
    (hok : StrToTime str nowYear localOffset = Outcome.ok tm) :
    ∃ (ys mo da : List Char) (c1 c2 : Char),
      d = ys ++ c1 :: (mo ++ c2 :: da) ∧
      (∀ x ∈ ys, isDigit x = true) ∧ (∀ x ∈ mo, isDigit x = true) ∧
      (∀ x ∈ da, isDigit x = true) ∧ isDateSep c1 = true ∧ isDateSep c2 = true ∧
      (c1 = c2 →
        dateArray d = [ys, mo, da] ∧
        tm.year = (if (decimalValue ys : Int) < 100 then
            Int.tdiv nowYear 100 * 100 + (decimalValue ys : Int) else (decimalValue ys : Int)) ∧
        tm.month = (decimalValue mo : Int) ∧ tm.day = (decimalValue da : Int)) ∧
      (c1 ≠ c2 →
        (dateArray d).length = 2 ∧ tm.year = 0 ∧ tm.month = 0 ∧ tm.day = 0) := by
  obtain ⟨ys, mo, da, c1, c2, hd, _, _, _, _, hys, hmo, hda, hc1, hc2⟩ :=
    (shapes_of_match _ _ _ _ _ _ _ _ hmatch).date
  rw [StrToTime_of_match _ _ _ _ _ _ _ _ _ _ hmatch] at hok
  obtain ⟨hyear, hmonth, hday, _⟩ := fromGroups_ok _ _ _ _ _ _ _ _ _ hok
  refine ⟨ys, mo, da, c1, c2, hd, hys, hmo, hda, hc1, hc2, ?_, ?_⟩
  · intro heq
    subst heq
    have harr := dateArray_same_sep ys mo da c1 hc1 hys hmo hda
    rw [← hd] at harr
    refine ⟨harr, ?_, ?_, ?_⟩
    · rw [hyear]
      unfold dateFields
      simp [harr, Atoi_digits ys hys]
    · rw [hmonth]
      unfold dateFields
      simp [harr, Atoi_digits mo hmo]
    · rw [hday]
      unfold dateFields
      simp [harr, Atoi_digits da hda]
  · intro hne
    have hlen := (dateArray_mixed_sep ys mo da c1 c2 hc1 hc2 hne hys hmo hda).2.2
    rw [← hd] at hlen
    have hz : dateFields d nowYear = (0, 0, 0) := by
      unfold dateFields
      simp [hlen]
    rw [hz] at hyear hmonth hday
    exact ⟨hlen, hyear, hmonth, hday⟩

theorem StrToTime_date_split_witness :
    FindStringSubmatch "2018-02-09".toList =
      ["2018-02-09".toList, "2018-02-09".toList, [], [], [], [], []] ∧
    StrToTime "2018-02-09".toList 2018 28800 =
      Outcome.ok ⟨2018, 2, 9, 0, 0, 0, 0, Location.Local⟩ ∧
    ∃ (ys mo da : List Char) (c1 c2 : Char),
      "2018-02-09".toList = ys ++ c1 :: (mo ++ c2 :: da) ∧
      (∀ x ∈ ys, isDigit x = true) ∧ (∀ x ∈ mo, isDigit x = true) ∧
      (∀ x ∈ da, isDigit x = true) ∧ isDateSep c1 = true ∧ isDateSep c2 = true ∧
      (c1 = c2 →
        dateArray "2018-02-09".toList = [ys, mo, da] ∧
        (2018 : Int) = (if (decimalValue ys : Int) < 100 then
            Int.tdiv 2018 100 * 100 + (decimalValue ys : Int) else (decimalValue ys : Int)) ∧
        (2 : Int) = (decimalValue mo : Int) ∧ (9 : Int) = (decimalValue da : Int)) ∧
      (c1 ≠ c2 →
        (dateArray "2018-02-09".toList).length = 2 ∧ (2018 : Int) = 0 ∧ (2 : Int) = 0 ∧
          (9 : Int) = 0) :=
  ⟨by decide, by decide,
    StrToTime_date_split "2018-02-09".toList "2018-02-09".toList "2018-02-09".toList [] [] [] []
      [] 2018 28800 ⟨2018, 2, 9, 0, 0, 0, 0, Location.Local⟩ (by decide) (by decide)⟩

/-- C16: for every captured offset group whose colon-free form `z` has at most
6 digits, the offset components are the slices `[0:2]`, `[2:4]`, `[4:6]`, read
as integers, of `z` padded on the right with `0` to 6 characters. Hence colons
in the offset are irrelevant, and a shorter offset is padded on the right. -/
theorem offset_normalization (str m0 d t f mk sg off : List Char)
    (hmatch : FindStringSubmatch str = [m0, d, t, f, mk, sg, off])
    (hlen : (ReplaceAllEmpty off ':').length ≤ 6) :
    (∀ c ∈ ReplaceAllEmpty off ':', isDigit c = true) ∧
    offsetHMS off = some (
      (decimalValue ((ReplaceAllEmpty off ':' ++
        List.replicate (6 - (ReplaceAllEmpty off ':').length) '0').take 2) : Int),
      (decimalValue (((ReplaceAllEmpty off ':' ++
        List.replicate (6 - (ReplaceAllEmpty off ':').length) '0').drop 2).take 2) : Int),
      (decimalValue (((ReplaceAllEmpty off ':' ++
        List.replicate (6 - (ReplaceAllEmpty off ':').length) '0').drop 4).take 2) : Int)) ∧
    (∀ off2 : List Char, (∀ c ∈ off2, isColonOrDigit c = true) →
      ReplaceAllEmpty off2 ':' = ReplaceAllEmpty off ':' → offsetHMS off2 = offsetHMS off) := by
  have hoff := (shapes_of_match _ _ _ _ _ _ _ _ hmatch).offset
  refine ⟨ReplaceAllEmpty_digits off hoff, offsetHMS_padded off hoff hlen, ?_⟩
  intro off2 hoff2 heq
  rw [offsetHMS_padded off hoff hlen, offsetHMS_padded off2 hoff2 (by rw [heq]; exact hlen), heq]

theorem offset_normalization_witness :
    FindStringSubmatch "2018-02-09 20:46:17 +08:05".toList =
      ["2018-02-09 20:46:17 +08:05".toList, "2018-02-09".toList, "20:46:17".toList, [],
        " ".toList, "+".toList, "08:05".toList] ∧
    offsetHMS "08:05".toList = some (8, 5, 0) ∧
    offsetHMS "0805".toList = offsetHMS "08:05".toList ∧
    offsetHMS "8".toList = some (80, 0, 0) :=
  ⟨by decide,
    ((offset_normalization "2018-02-09 20:46:17 +08:05".toList
      "2018-02-09 20:46:17 +08:05".toList "2018-02-09".toList "20:46:17".toList []
      " ".toList "+".toList "08:05".toList (by decide) (by decide)).2.1).trans (by decide),
    (offset_normalization "2018-02-09 20:46:17 +08:05".toList
      "2018-02-09 20:46:17 +08:05".toList "2018-02-09".toList "20:46:17".toList []
      " ".toList "+".toList "08:05".toList (by decide) (by decide)).2.2 "0805".toList
      (by decide) (by decide),
    ((offset_normalization "2018-02-09 20:46:17 +8".toList
      "2018-02-09 20:46:17 +8".toList "2018-02-09".toList "20:46:17".toList []
      " ".toList "+".toList "8".toList (by decide) (by decide)).2.1).trans (by decide)⟩

/-- C17 (failing input): under local offset +08:00 the text
`2014-01-17T01:19:15-08:00` is kept as local time 01:19:15, that is the instant
1389892755 (2014-01-16T17:19:15Z), while the text denotes 1389950355
(2014-01-17T09:19:15Z). -/
theorem StrToTime_negative_offset_instant :
    StrToTime "2014-01-17T01:19:15-08:00".toList 2018 28800 =
      Outcome.ok ⟨2014, 1, 17, 1, 19, 15, 0, Location.Local⟩ ∧
    (Time.build ⟨2014, 1, 17, 1, 19, 15, 0, Location.Local⟩ 28800).unix = 1389892755 ∧
    denotedUnix 2014 1 17 1 19 15 '-' 8 0 = 1389950355 ∧
    (Time.build ⟨2014, 1, 17, 1, 19, 15, 0, Location.Local⟩ 28800).unix ≠
      denotedUnix 2014 1 17 1 19 15 '-' 8 0 := by
  decide

/-- C18 (counterexample): under local offset +08:00, `2018-02-09 20:46:17`
followed by one space is tagged UTC, while without the space it is local. -/
theorem StrToTime_trailing_space_counterexample :
    StrToTime "2018-02-09 20:46:17 ".toList 2018 28800 =
      Outcome.ok ⟨2018, 2, 9, 20, 46, 17, 0, Location.UTC⟩ ∧
    StrToTime "2018-02-09 20:46:17".toList 2018 28800 =
      Outcome.ok ⟨2018, 2, 9, 20, 46, 17, 0, Location.Local⟩ ∧
    StrToTime "2018-02-09 20:46:17 ".toList 2018 28800 ≠
      StrToTime "2018-02-09 20:46:17".toList 2018 28800 := by
  decide

/-- C18 (amended): a prefix without digits does not change the result of
`StrToTime`, for every input. For `s` of the form `YYYY-MM-DD HH:MM:SS`,
appending one whitespace character of the grammar leaves year, month, day,
hour, minute, second and nanosecond unchanged; the whitespace is taken as a
zone marker, so the zone stays local when the local offset is 0 and is UTC
otherwise. -/
theorem StrToTime_surrounding_text (nowYear localOffset : Int) :
    (∀ p s : List Char, (∀ c ∈ p, isDigit c = false) →
      StrToTime (p ++ s) nowYear localOffset = StrToTime s nowYear localOffset) ∧
    (∀ (a b c d e f g h i j k l m n : Nat) (sep ws : Char),
      sep = '-' ∨ sep = '/' → isSpace ws = true →
      StrToTime [dig a, dig b, dig c, dig d, sep, dig e, dig f, sep, dig g, dig h, ' ',
          dig i, dig j, ':', dig k, dig l, ':', dig m, dig n] nowYear localOffset =
        Outcome.ok ⟨
          (dateFields [dig a, dig b, dig c, dig d, sep, dig e, dig f, sep, dig g, dig h]
            nowYear).1,
          ((e % 10 * 10 + f % 10 : Nat) : Int), ((g % 10 * 10 + h % 10 : Nat) : Int),
          ((i % 10 * 10 + j % 10 : Nat) : Int), ((k % 10 * 10 + l % 10 : Nat) : Int),
          ((m % 10 * 10 + n % 10 : Nat) : Int), 0, Location.Local⟩ ∧
      StrToTime [dig a, dig b, dig c, dig d, sep, dig e, dig f, sep, dig g, dig h, ' ',
          dig i, dig j, ':', dig k, dig l, ':', dig m, dig n, ws] nowYear localOffset =
        Outcome.ok ⟨
          (dateFields [dig a, dig b, dig c, dig d, sep, dig e, dig f, sep, dig g, dig h]
            nowYear).1,
          ((e % 10 * 10 + f % 10 : Nat) : Int), ((g % 10 * 10 + h % 10 : Nat) : Int),
          ((i % 10 * 10 + j % 10 : Nat) : Int), ((k % 10 * 10 + l % 10 : Nat) : Int),
          ((m % 10 * 10 + n % 10 : Nat) : Int), 0,
          if localOffset = 0 then Location.Local else Location.UTC⟩) := by
  constructor
  · intro p s hp
    unfold StrToTime FindStringSubmatch
    rw [search_skip_nondigits p s hp]
  · intro a b c d e f g h i j k l m n sep ws hsep hws
    constructor
    · rw [StrToTime_of_match _ _ _ _ _ _ _ _ _ _
        (find_colon_time a b c d e f g h i j k l m n sep hsep)]
      unfold fromGroups
      rw [timeFields_colons, dateFields_four a b c d e f g h sep hsep]
      simp [nsecField, effectiveOffset]
    · rw [StrToTime_of_match _ _ _ _ _ _ _ _ _ _
        (find_trailing_space a b c d e f g h i j k l m n sep ws hsep hws),
        (marker_only_result _ _ _ _ _ _ _ (by simp)).2, timeFields_colons,
        dateFields_four a b c d e f g h sep hsep]
      simp [nsecField]

theorem StrToTime_surrounding_text_witness :
    StrToTime "at 2018-02-09 20:46:17".toList 2018 28800 =
      StrToTime "2018-02-09 20:46:17".toList 2018 28800 ∧
    StrToTime "2018-02-09 20:46:17".toList 2018 28800 =
      Outcome.ok ⟨2018, 2, 9, 20, 46, 17, 0, Location.Local⟩ ∧
    StrToTime "2018-02-09 20:46:17 ".toList 2018 28800 =
      Outcome.ok ⟨2018, 2, 9, 20, 46, 17, 0, Location.UTC⟩ ∧
    StrToTime "2018-02-09 20:46:17 ".toList 2018 0 =
      Outcome.ok ⟨2018, 2, 9, 20, 46, 17, 0, Location.Local⟩ :=
  ⟨(StrToTime_surrounding_text 2018 28800).1 "at ".toList "2018-02-09 20:46:17".toList
      (by decide),
    (((StrToTime_surrounding_text 2018 28800).2 2 0 1 8 0 2 0 9 2 0 4 6 1 7 '-' ' '
      (Or.inl rfl) (by decide)).1).trans (by decide),
    (((StrToTime_surrounding_text 2018 28800).2 2 0 1 8 0 2 0 9 2 0 4 6 1 7 '-' ' '
      (Or.inl rfl) (by decide)).2).trans (by decide),
    (((StrToTime_surrounding_text 2018 0).2 2 0 1 8 0 2 0 9 2 0 4 6 1 7 '-' ' '
      (Or.inl rfl) (by decide)).2).trans (by decide)⟩

end Gtime
